import Mathlib

/-!
Verification development for the HotelHarvest crawler (src/main.py, src/images.py).

URLs and other Python strings are modelled as `List Char`.  Python library
functions used by the source (`urllib.parse.urlparse`, `urljoin`,
`tldextract.extract`, `str.lower`, `str.strip`, `str.rstrip`) are modelled
faithfully for the inputs the repository feeds them; the HTML documents that
BeautifulSoup queries produce are modelled as abstract pages whose fields are
the results of the queries the source performs.
-/

namespace HotelHarvest

abbrev Url := List Char

/-- Model of ASCII `str.lower` on one character (Python `.lower()`,
ASCII range, which is all the source compares against). -/
def lowerChar (c : Char) : Char :=
  if 'A' ≤ c ∧ c ≤ 'Z' then Char.ofNat (c.toNat + 32) else c

/-- Model of Python `str.lower()`. -/
def lower (s : Url) : Url := s.map lowerChar

def isSpaceChar (c : Char) : Bool := c = ' ' || c = '\t' || c = '\n' || c = '\r'

/-- Model of the Python `in` operator on strings: `needle` occurs as a
contiguous substring of `hay`. -/
def isSub (needle : Url) : Url → Bool
  | [] => needle.isEmpty
  | c :: t => needle.isPrefixOf (c :: t) || isSub needle t

/-- Model of Python `str.strip()`. -/
def pyStrip (s : Url) : Url :=
  ((s.dropWhile isSpaceChar).reverse.dropWhile isSpaceChar).reverse

/-- Model of Python `str.rstrip('/')` as used in `normalize_url`. -/
def rstripSlash (s : Url) : Url := (s.reverse.dropWhile (· = '/')).reverse

/-- Result type of `urllib.parse.urlparse` (the fields the source reads). -/
structure UrlParts where
  scheme : Url
  netloc : Url
  path : Url
  query : Url
deriving Repr, DecidableEq

def schemeChar (c : Char) : Bool :=
  c.isAlpha || c.isDigit || c = '+' || c = '-' || c = '.'

/-- Fragment removal: `urlparse` drops everything from the first `'#'` on (the fragment). -/
def stripFrag (s : Url) : Url := s.takeWhile (· ≠ '#')

/-- Modelled from the library: scheme extraction of `urllib.parse.urlsplit` —
split at the first `':'` when the prefix before it is a nonempty valid scheme
(letter first, then letters/digits/`+`/`-`/`.`); the scheme is lowercased. -/
def splitScheme (s : Url) : Url × Url :=
  if (s.takeWhile (· ≠ ':')).length < s.length
      && !(s.takeWhile (· ≠ ':')).isEmpty
      && (s.takeWhile (· ≠ ':')).all schemeChar
      && ((s.takeWhile (· ≠ ':')).headD ' ').isAlpha then
    (lower (s.takeWhile (· ≠ ':')), s.drop ((s.takeWhile (· ≠ ':')).length + 1))
  else ([], s)

def netlocStop (c : Char) : Bool := c = '/' || c = '?' || c = '#'

/-- Modelled from the library: netloc extraction of `urlsplit` — after a
leading `"//"`, the netloc runs to the first `/`, `?` or `#`. -/
def splitNetloc (s : Url) : Url × Url :=
  if s.take 2 = ['/', '/'] then
    ((s.drop 2).takeWhile (fun c => !netlocStop c),
     (s.drop 2).drop ((s.drop 2).takeWhile (fun c => !netlocStop c)).length)
  else ([], s)

/-- Modelled from the library: query split of `urlsplit` at the first `'?'`. -/
def splitQuery (s : Url) : Url × Url :=
  if s.contains '?' then (s.takeWhile (· ≠ '?'), (s.dropWhile (· ≠ '?')).drop 1)
  else (s, [])

/-- Modelled from the library: `urllib.parse.urlparse` restricted to the
fields the source reads (scheme, netloc, path, query); the fragment is
dropped.  CPython splits the scheme before the fragment, but a valid scheme
prefix can contain no `'#'`, so splitting the fragment first is equivalent.
This function models only the value of a non-raising parse; the
`ValueError` that CPython's `urlsplit` can raise is modelled separately by
`urlsplitRaises` below, and callers without a `try/except` are modelled as
`Except`-valued functions built from both. -/
def urlparse (s : Url) : UrlParts :=
  ⟨(splitScheme (stripFrag s)).1,
   (splitNetloc (splitScheme (stripFrag s)).2).1,
   (splitQuery (splitNetloc (splitScheme (stripFrag s)).2).2).1,
   (splitQuery (splitNetloc (splitScheme (stripFrag s)).2).2).2⟩

/-- Modelled from the library: CPython's `urllib.parse.urlsplit` raises
`ValueError("Invalid IPv6 URL")` when the netloc it extracts contains a
`'['` without a `']'` or a `']'` without a `'['` (the bracketed-host
content validation added in newer CPython is not modelled; it only makes
`urlsplit` raise on strictly more inputs). -/
def urlsplitRaises (s : Url) : Bool :=
  ((urlparse s).netloc.contains '[' && !((urlparse s).netloc.contains ']')) ||
  ((urlparse s).netloc.contains ']' && !((urlparse s).netloc.contains '['))

/-- Source f-string `f"{parsed.scheme}://{parsed.netloc}{parsed.path}"` of
`WebsiteScraper.normalize_url` (src/main.py line 170). -/
def urlbase (p : UrlParts) : Url :=
  p.scheme ++ [':', '/', '/'] ++ p.netloc ++ p.path

/-- Modelled from the library: `urllib.parse.urljoin` for the reference
shapes the source produces — absolute URLs, scheme-relative (`//…`),
root-relative (`/…`) and simple relative references (without dot-segment
resolution, which no input of this development uses). -/
def urljoin (base rel : Url) : Url :=
  if rel.isEmpty then base
  else if !(urlparse rel).scheme.isEmpty then rel
  else if "//".data.isPrefixOf rel then (urlparse base).scheme ++ ':' :: rel
  else if "/".data.isPrefixOf rel then
    (urlparse base).scheme ++ [':', '/', '/'] ++ (urlparse base).netloc ++ rel
  else
    (urlparse base).scheme ++ [':', '/', '/'] ++ (urlparse base).netloc ++
      (if ((urlparse base).path.reverse.dropWhile (· ≠ '/')).reverse.isEmpty then
        '/' :: rel
      else ((urlparse base).path.reverse.dropWhile (· ≠ '/')).reverse ++ rel)

namespace WebsiteScraper

/-- Source list `self.potential_booking_domains` (src/main.py lines 66-68). -/
def potential_booking_domains : List Url :=
  ["booking".data, "reserve".data, "reservation".data, "book".data]

/-- The path/query booking terms of `is_booking_url` (src/main.py 243, 247). -/
def bookingPathTerms : List Url :=
  ["book".data, "reserve".data, "reservation".data]

/-- Source method `WebsiteScraper.is_booking_url` (src/main.py lines 234-250). -/
def is_booking_url (url : Url) : Bool :=
  potential_booking_domains.any (fun t => isSub t (lower (urlparse url).netloc))
  || bookingPathTerms.any (fun t => isSub t (lower (urlparse url).path))
  || (!(urlparse url).query.isEmpty
      && bookingPathTerms.any (fun t => isSub t (lower (urlparse url).query)))

/-- The skip list of `normalize_url` (src/main.py line 179). -/
def volatileKeys : List Url :=
  ["lang".data, "language".data, "currency".data, "nsid".data, "sessionid".data]

def paramKey (p : Url) : Url := p.takeWhile (· ≠ '=')
def paramVal (p : Url) : Url := (p.dropWhile (· ≠ '=')).drop 1
def paramHasEq (p : Url) : Bool := p.contains '='

/-- Python dict insertion: first occurrence fixes the position, a later
insert with the same key overwrites the value in place. -/
def dictInsert (d : List (Url × Url)) (k v : Url) : List (Url × Url) :=
  match d with
  | [] => [(k, v)]
  | (k', v') :: rest =>
    if k' = k then (k', v) :: rest else (k', v') :: dictInsert rest k v

/-- Source dict `query_params` built by `normalize_url` (src/main.py 174-180):
params with an `'='` whose lowercased key is not volatile are kept. -/
def buildQueryDict (params : List Url) : List (Url × Url) :=
  params.foldl
    (fun d p =>
      if paramHasEq p && !(volatileKeys.contains (lower (paramKey p))) then
        dictInsert d (paramKey p) (paramVal p)
      else d)
    []

/-- Source join `'&'.join(f"{k}={v}" ...)` (src/main.py line 182). -/
def joinParams : List (Url × Url) → Url
  | [] => []
  | [(k, v)] => k ++ '=' :: v
  | (k, v) :: rest => k ++ '=' :: v ++ '&' :: joinParams rest

/-- Source method `WebsiteScraper.normalize_url` (src/main.py lines 167-185). -/
def normalize_url (url : Url) : Url :=
  rstripSlash
    (if !(urlparse url).query.isEmpty then
      if is_booking_url url then
        if !(buildQueryDict ((urlparse url).query.splitOn '&')).isEmpty then
          urlbase (urlparse url) ++ '?' ::
            joinParams (buildQueryDict ((urlparse url).query.splitOn '&'))
        else urlbase (urlparse url)
      else urlbase (urlparse url) ++ '?' :: (urlparse url).query
    else urlbase (urlparse url))

end WebsiteScraper

/-! ### Model of `tldextract.extract` -/

/-- Modelled from the library: a fixed fragment of the public-suffix list
that `tldextract` consults; enough for every host the development uses. -/
def publicSuffixes : List Url :=
  ["com".data, "net".data, "org".data, "io".data, "fr".data, "de".data,
   "uk".data, "co.uk".data]

def joinDots : List Url → Url
  | [] => []
  | [l] => l
  | l :: rest => l ++ '.' :: joinDots rest

/-- The longest `k ≤ bound` such that the last `k` labels form a public suffix. -/
def findSuffixLen (labels : List Url) : Nat → Option Nat
  | 0 => none
  | k + 1 =>
    if publicSuffixes.contains (joinDots (labels.drop (labels.length - (k + 1)))) then
      some (k + 1)
    else findSuffixLen labels k

/-- The host that `tldextract` works on when handed a full URL. -/
def tldHost (url : Url) : Url :=
  if !(urlparse url).netloc.isEmpty then (urlparse url).netloc
  else (urlparse url).path.takeWhile (· ≠ '/')

structure TldParts where
  subdomain : Url
  domain : Url
  suffix : Url
deriving Repr, DecidableEq

/-- Modelled from the library: `tldextract.extract` — the registered suffix
is the longest public-suffix match on the host's dot-labels; the domain is
the label before it and the subdomain everything before that. -/
def tldextract (url : Url) : TldParts :=
  let labels := (tldHost url).splitOn '.'
  match findSuffixLen labels labels.length with
  | some k =>
    let rest := labels.take (labels.length - k)
    ⟨joinDots rest.dropLast, rest.getLastD [],
     joinDots (labels.drop (labels.length - k))⟩
  | none => ⟨joinDots labels.dropLast, labels.getLastD [], []⟩

/-- Source expression `f"{extracted.domain}.{extracted.suffix}"` as computed in
`WebsiteScraper.__init__` (src/main.py line 33) and `is_same_site` (line 137). -/
def rootDomainOf (url : Url) : Url :=
  let e := tldextract url
  e.domain ++ '.' :: e.suffix

namespace WebsiteScraper

/-- The scraper state fixed at construction (src/main.py lines 26-34, 71). -/
structure Scraper where
  base_url : Url
  domain : Url
  root_domain : Url
  max_booking_urls : Nat
deriving Repr

/-- Source constructor `WebsiteScraper.__init__` (the fields the classifiers read). -/
def mkScraper (base_url : Url) (max_booking_urls : Nat) : Scraper :=
  ⟨base_url, (urlparse base_url).netloc, rootDomainOf base_url, max_booking_urls⟩

/-- Source method `WebsiteScraper.is_same_site` (src/main.py lines 129-140). -/
def is_same_site (sc : Scraper) (url : Url) : Bool :=
  if (urlparse url).netloc.isEmpty then false
  else rootDomainOf url == sc.root_domain

/-- Source list `file_extensions` of `is_valid_url` (src/main.py lines 160-161). -/
def file_extensions : List Url :=
  [".pdf".data, ".jpg".data, ".jpeg".data, ".png".data, ".gif".data,
   ".svg".data, ".css".data, ".js".data, ".ico".data, ".xml".data,
   ".zip".data, ".doc".data, ".docx".data]

/-- Source method `WebsiteScraper.is_valid_url` (src/main.py lines 142-165). -/
def is_valid_url (sc : Scraper) (url : Url) : Bool :=
  if (urlparse url).netloc.isEmpty then false
  else if !is_same_site sc url then
    potential_booking_domains.any (fun t => isSub t (lower (urlparse url).netloc))
      && isSub sc.root_domain (lower (urlparse url).netloc)
  else if file_extensions.any
      (fun ext => ext.isSuffixOf (lower (urlparse url).path)) then
    false
  else true

/-- Source method `WebsiteScraper.is_valid_url` with the exception path of
its `urlparse` calls made explicit (the first at src/main.py line 144, and
the one inside `is_same_site` at line 131): the method and `is_same_site`
have no `try`/`except`, so the `ValueError` raised by `urlsplit` on a
bracket-unbalanced netloc (see `urlsplitRaises`) propagates to the caller,
modelled as `.error ()`; on every other input the method returns the pure
classification `is_valid_url`. -/
def is_valid_urlE (sc : Scraper) (url : Url) : Except Unit Bool :=
  if urlsplitRaises url then .error () else .ok (is_valid_url sc url)

end WebsiteScraper

namespace ImageDownloader

/-- Source list `cdn_patterns` of `ImageDownloader.is_valid_url` (src/images.py line 115). -/
def cdn_patterns : List Url :=
  ["cloudfront.net".data, "akamaized.net".data, "cloudinary.com".data,
   "imgix.net".data, "amazonaws.com".data]

/-- Source list `image_extensions` of `ImageDownloader.is_valid_url` (src/images.py 118). -/
def image_extensions : List Url :=
  [".jpg".data, ".jpeg".data, ".png".data, ".gif".data, ".webp".data]

/-- Model of `os.path.basename` on a URL path. -/
def basenameOf (p : Url) : Url := (p.reverse.takeWhile (· ≠ '/')).reverse

/-- Model of `os.path.splitext(p)[1]`: the extension starting at the last
dot of the basename, empty when the basename has no non-leading dot. -/
def splitextExt (p : Url) : Url :=
  let b := basenameOf p
  if (b.dropWhile (· = '.')).contains '.' then
    '.' :: (b.reverse.takeWhile (· ≠ '.')).reverse
  else []

/-- Source expression `'.'.join(self.domain.split('.')[-2:])` (src/images.py line 110). -/
def lastTwoLabels (d : Url) : Url := joinDots (((d.splitOn '.').reverse.take 2).reverse)

/-- Source method `ImageDownloader.is_valid_url` (src/images.py lines 98-123); its
`try`/bare-`except` returns `False` on any error, so the model is total. -/
def is_valid_url (domain : Url) (url : Url) : Bool :=
  if (urlparse url).netloc.isEmpty then false
  else if (urlparse url).netloc == domain then true
  else if isSub (lastTwoLabels domain) (urlparse url).netloc then true
  else if cdn_patterns.any (fun c => isSub c (urlparse url).netloc) then
    image_extensions.contains (lower (splitextExt (urlparse url).path))
  else false

/-- Source method `ImageDownloader.is_valid_url` with the exception path of
its `urlparse` call made explicit: the whole body sits in a `try` whose
bare `except` (src/images.py lines 122-123) turns the `ValueError` raised
by `urlsplit` on a bracket-unbalanced netloc into the classification
`False`, so this classifier never raises to its caller. -/
def is_valid_urlE (domain : Url) (url : Url) : Except Unit Bool :=
  .ok (if urlsplitRaises url then false else is_valid_url domain url)

/-- The configuration fixed by `ImageDownloader.__init__` (src/images.py
lines 25-35): thresholds, page cap and the netloc of the base URL. -/
structure ImgConfig where
  base_url : Url
  domain : Url
  min_width : Nat
  min_height : Nat
  min_size_kb : Nat
  max_pages : Nat
deriving Repr

/-- Source constructor `ImageDownloader.__init__` (the fields the model reads). -/
def mkImageDownloader (base_url : Url) (min_width min_height min_size_kb max_pages : Nat) :
    ImgConfig :=
  ⟨base_url, (urlparse base_url).netloc, min_width, min_height, min_size_kb, max_pages⟩

/-- One HTTP GET outcome for an image request: a raised
`requests.RequestException`, or a response carrying its `ok` status (for
`raise_for_status`), `Content-Type` header and body bytes. -/
inductive ImgResp where
  | err
  | resp (ok : Bool) (contentType : Url) (body : List Nat)
deriving Repr, DecidableEq

/-- The network as one retry attempt of `download_image` observes it: the
HEAD probe and the GET inside `get_image_info`, and the separate GET of
`download_image` line 187 (each call site issues its own request, so each
may behave differently). `head = none` models a raised exception; the HEAD
pair is (`Content-Type`, parsed `Content-Length`, 0 when absent). -/
structure AttemptNet where
  head : Url → Option (Url × Nat)
  getInfo : Url → ImgResp
  getMain : Url → ImgResp

/-- Source method `ImageDownloader.get_image_info` (src/images.py lines
125-166): HEAD content-type and early content-length check, then GET, byte
size and decoded-dimension checks; its own `try` catches every error and
returns an invalid result.  `decode` models `PIL.Image.open(...).size`
(`none` = decode error). -/
def get_image_info (cfg : ImgConfig) (net : AttemptNet)
    (decode : List Nat → Option (Nat × Nat)) (img_url : Url) :
    Bool × Url × Nat × Nat × Nat :=
  match net.head img_url with
  | none => (false, [], 0, 0, 0)
  | some (ctype, clen) =>
    if !("image/".data.isPrefixOf ctype) then (false, ctype, 0, 0, 0)
    else if clen > 0 && clen < cfg.min_size_kb * 1024 then (false, ctype, 0, 0, clen)
    else
      match net.getInfo img_url with
      | .err => (false, [], 0, 0, 0)
      | .resp _ _ body =>
        if body.length < cfg.min_size_kb * 1024 then (false, ctype, 0, 0, body.length)
        else
          match decode body with
          | none => (false, [], 0, 0, 0)
          | some (w, h) =>
            if w < cfg.min_width || h < cfg.min_height then
              (false, ctype, w, h, body.length)
            else (true, ctype, w, h, body.length)

/-- Writing `filename` into the image directory: a second write to the same
name overwrites in place, otherwise the file is appended. -/
def writeFile (files : List (Url × List Nat)) (name : Url) (body : List Nat) :
    List (Url × List Nat) :=
  if files.any (fun f => f.1 == name) then
    files.map (fun f => if f.1 == name then (name, body) else f)
  else files ++ [(name, body)]

/-- Source expression `content_type.split('/')[-1]` (src/images.py 202). -/
def lastSegAfterSlash (s : Url) : Url := (s.reverse.takeWhile (· ≠ '/')).reverse

/-- The state the `download_image` retry path reads and writes.  The Python
attribute `self.image_urls` holds md5 hex digests on this path; the digest is
modelled as the raw byte list itself (an idealised collision-free hash), so
`image_urls : List (List Nat)`.  `attempts` counts loop iterations and
`sleeps` records the `time.sleep` backoff waits, both observable effects. -/
structure RetryState where
  image_urls : List (List Nat)
  files : List (Url × List Nat)
  downloaded_count : Nat
  attempts : Nat
  sleeps : List Nat
deriving Repr, DecidableEq

/-- Source default `max_retries=3` of `download_image` (src/images.py 172). -/
def max_retries_default : Nat := 3

/-- The filename choice of `download_image` (src/images.py lines 198-203):
the basename of the URL path when it has a dot, else hash-dot-extension. -/
def download_filename (hashHex : List Nat → Url) (u : Url) (ctype : Url)
    (body : List Nat) : Url :=
  if (basenameOf (urlparse u).path).isEmpty
      || !((basenameOf (urlparse u).path).contains '.') then
    hashHex body ++ '.' :: lastSegAfterSlash ctype
  else basenameOf (urlparse u).path

/-- The retry loop body of `ImageDownloader.download_image` (src/images.py
lines 172-227), one recursive step per `for attempt in range(max_retries)`
iteration.  `remaining` is `max_retries - attempt`; `img_url` is re-joined
against the base URL at the top of every iteration as in the source.
`hashHex` models the hex rendering of the digest used for synthesised
filenames. -/
def download_image_go (cfg : ImgConfig) (netSeq : Nat → AttemptNet)
    (decode : List Nat → Option (Nat × Nat)) (hashHex : List Nat → Url) :
    Nat → Nat → Url → RetryState → RetryState × Bool
  | 0, _, _, st => (st, false)
  | remaining + 1, attempt, img_url, st =>
    let net := netSeq attempt
    let u := urljoin cfg.base_url img_url
    let st := { st with attempts := st.attempts + 1 }
    match get_image_info cfg net decode u with
    | (false, _, _, _, _) => (st, false)
    | (true, ctype, _, _, _) =>
      match net.getMain u with
      | .err =>
        match remaining with
        | 0 => (st, false)
        | r + 1 =>
          download_image_go cfg netSeq decode hashHex (r + 1) (attempt + 1) u
            { st with sleeps := st.sleeps ++ [2 ^ attempt] }
      | .resp _ _ body =>
        if body ∈ st.image_urls then (st, false)
        else
          ({ st with image_urls := body :: st.image_urls,
                     files := writeFile st.files
                       (download_filename hashHex u ctype body) body,
                     downloaded_count := st.downloaded_count + 1 }, true)

/-- Source method `ImageDownloader.download_image` — entry point of the
retry loop. -/
def download_image (cfg : ImgConfig) (netSeq : Nat → AttemptNet)
    (decode : List Nat → Option (Nat × Nat)) (hashHex : List Nat → Url)
    (max_retries : Nat) (img_url : Url) (st : RetryState) : RetryState × Bool :=
  download_image_go cfg netSeq decode hashHex max_retries 0 img_url st

/-- The pipeline state of one `ImageDownloader.crawl` run: the visited pages,
the per-page candidate set `image_urls` (URL strings on this path), the saved
files, the download counter and a trace of every GET the pipeline issues for
an image candidate. -/
structure ImgState where
  visited_urls : List Url
  image_urls : List Url
  downloaded_count : Nat
  files : List (Url × List Nat)
  getTrace : List Url
deriving Repr, DecidableEq

/-- Network for one image GET of the pipeline path (`_download_image` issues
a single request per candidate). -/
structure PipeNet where
  get : Url → ImgResp

/-- The filename choice of `_download_image` (src/images.py lines 536-540):
the basename of the URL path when it has a dot, else
`f"image_{hash(url) % 10000}.jpg"`. -/
def pipe_filename (pyHash : Url → Nat) (url : Url) : Url :=
  if (basenameOf (urlparse url).path).isEmpty
      || !((basenameOf (urlparse url).path).contains '.') then
    "image_".data ++ (Nat.toDigits 10 (pyHash url % 10000)) ++ ".jpg".data
  else basenameOf (urlparse url).path

/-- The comparison `file_size_kb = len(response.content) / 1024;
file_size_kb < self.min_size_kb` of `_download_image` (src/images.py lines
524-525).  Python float division by the power of two 1024 is exact at these
magnitudes, so it is modelled as the exact rational `len / 1024`. -/
def sizeKbLt (len min_kb : Nat) : Bool := mkRat len 1024 < mkRat min_kb 1

/-- Source method `ImageDownloader._download_image` (src/images.py lines
511-551): one GET, `raise_for_status`, content-type check, byte size check
via the float division `len(content)/1024 < min_size_kb` (see `sizeKbLt`),
dimension check, then an unconditional write —
this path computes no content hash.  Any error is caught and skips the
candidate.  `pyHash` models the builtin `hash` for the fallback filename. -/
def img_download_image (cfg : ImgConfig) (net : PipeNet)
    (decode : List Nat → Option (Nat × Nat)) (pyHash : Url → Nat)
    (st : ImgState) (url : Url) : ImgState :=
  let st := { st with getTrace := st.getTrace ++ [url] }
  match net.get url with
  | .err => st
  | .resp ok ctype body =>
    if !ok then st
    else if !("image/".data.isPrefixOf ctype) then st
    else if sizeKbLt body.length cfg.min_size_kb then st
    else
      match decode body with
      | none => st
      | some (w, h) =>
        if w < cfg.min_width || h < cfg.min_height then st
        else
          { st with files := writeFile st.files (pipe_filename pyHash url) body,
                    downloaded_count := st.downloaded_count + 1 }

/-- Source method `ImageDownloader._download_images` (src/images.py lines
493-509): every candidate in `image_urls` is processed (the worker pool is
modelled as a sequential fold in submission order — the shared state is only
the saved-file set and the counter), failures are logged and skipped, and
the candidate set is cleared afterwards. -/
def img_download_images (cfg : ImgConfig) (net : PipeNet)
    (decode : List Nat → Option (Nat × Nat)) (pyHash : Url → Nat)
    (st : ImgState) : ImgState :=
  let st' := st.image_urls.foldl (img_download_image cfg net decode pyHash) st
  { st' with image_urls := [] }

/-- An `img` element as the pipeline reads it: `src`, lazy-load `data-src`,
and the declared `width`/`height` attributes (modelled pre-parsed, as the
source feeds them to `int(...)`). -/
structure ImgTag where
  src : Option Url
  data_src : Option Url
  width : Option Int
  height : Option Int
deriving Repr, DecidableEq

/-- An anchor as the image crawler reads it (`link.get('href')`,
`link.text`). -/
structure ImgAnchor where
  href : Option Url
  text : Url
deriving Repr, DecidableEq

/-- A fetched page as the image crawler's BeautifulSoup queries observe it:
the `img` elements, the `background-image: url(...)` matches extracted from
`style` attributes, and the anchors. -/
structure ImgPage where
  imgs : List ImgTag
  bgUrls : List Url
  anchors : List ImgAnchor
deriving Repr, DecidableEq

/-- Network for page fetches of the image crawler; `none` models a non-2xx
status (`raise_for_status`) or a raised exception — both are caught. -/
abbrev ImgPageNet := Url → Option ImgPage

/-- Source list `priority_keywords` of `_identify_priority_pages`
(src/images.py lines 367-372). -/
def priority_keywords_identify : List Url :=
  ["room".data, "suite".data, "accommodation".data, "stay".data,
   "lodging".data, "facility".data, "amenity".data, "service".data,
   "spa".data, "restaurant".data, "dining".data, "gallery".data,
   "photo".data, "image".data, "tour".data, "about".data, "location".data,
   "contact".data]

/-- Source list `priority_keywords` of `_process_url` (src/images.py lines
470-474). -/
def priority_keywords_process : List Url :=
  ["room".data, "suite".data, "accommodation".data, "stay".data,
   "lodging".data, "facility".data, "amenity".data, "service".data,
   "spa".data, "restaurant".data, "dining".data, "gallery".data,
   "photo".data, "image".data, "tour".data]

/-- Source list of icon/decoration URL markers (src/images.py line 434). -/
def icon_patterns : List Url :=
  ["icon".data, "logo".data, "button".data, "bg-".data, "background".data]

/-- Set insertion preserving first-insertion order (`set.add`). -/
def insertSet (s : List Url) (x : Url) : List Url :=
  if x ∈ s then s else s ++ [x]

/-- The candidate image URLs one page contributes, in the order `_process_url`
visits them (src/images.py lines 420-456): `img` `src` (filtered by the
small-size and icon-marker pre-filters) with its `data-src`, then the inline
`background-image` URLs, each made absolute. -/
def pageImageUrls (pg : ImgPage) (url : Url) : List Url :=
  pg.imgs.foldl
    (fun acc img =>
      match img.src with
      | none => acc
      | some isrc =>
        if (match img.width, img.height with
            | some w, some h => w < 100 && h < 100
            | _, _ => false) then acc
        else if icon_patterns.any (fun pat => isSub pat (lower isrc)) then acc
        else
          let acc := acc ++ [urljoin url isrc]
          match img.data_src with
          | some ds => acc ++ [urljoin url ds]
          | none => acc)
    [] ++ pg.bgUrls.map (urljoin url)

/-- The image-collection step of `_process_url`: each candidate is added to
the `image_urls` set. -/
def collectImages (st : ImgState) (pg : ImgPage) (url : Url) : ImgState :=
  { st with image_urls := (pageImageUrls pg url).foldl insertSet st.image_urls }

/-- The keyword test of the priority-link follow in `_process_url`
(src/images.py line 476). -/
def isPriorityLink (a : ImgAnchor) (href : Url) : Bool :=
  priority_keywords_process.any
    (fun kw => isSub kw (pyStrip (lower a.text)) || isSub kw (lower href))

mutual

/-- Source method `ImageDownloader._process_url` (src/images.py lines
397-491): page-cap check, visited check and mark, fetch, image collection,
priority-link recursion on priority pages, then `_download_images`.  The
unbounded Python recursion is modelled with fuel — every theorem about it
quantifies over the fuel. -/
def img_process_url (cfg : ImgConfig) (pageNet : ImgPageNet) (net : ImageDownloader.PipeNet)
    (decode : List Nat → Option (Nat × Nat)) (pyHash : Url → Nat) :
    Nat → ImgState → Url → Bool → ImgState
  | 0, st, _, _ => st
  | fuel + 1, st, url, is_priority =>
    if st.visited_urls.length ≥ cfg.max_pages then st
    else if url ∈ st.visited_urls then st
    else
      let st := { st with visited_urls := url :: st.visited_urls }
      match pageNet url with
      | none => ImageDownloader.img_download_images cfg net decode pyHash st
      | some pg =>
        let st := collectImages st pg url
        let st :=
          if is_priority then
            img_follow_links cfg pageNet net decode pyHash fuel st url pg.anchors
          else st
        ImageDownloader.img_download_images cfg net decode pyHash st
termination_by fuel st url p => (fuel, 0)

/-- The priority-link loop of `_process_url` (src/images.py lines 459-485):
anchors with a priority keyword on the same domain and not yet visited are
recursively processed as priority pages. -/
def img_follow_links (cfg : ImgConfig) (pageNet : ImgPageNet) (net : ImageDownloader.PipeNet)
    (decode : List Nat → Option (Nat × Nat)) (pyHash : Url → Nat) :
    Nat → ImgState → Url → List ImgAnchor → ImgState
  | _, st, _, [] => st
  | fuel, st, url, a :: rest =>
    let st :=
      match a.href with
      | none => st
      | some href =>
        if isPriorityLink a href then
          let absolute := urljoin url href
          if (urlparse absolute).netloc == cfg.domain
              && decide (absolute ∉ st.visited_urls) then
            img_process_url cfg pageNet net decode pyHash fuel st absolute true
          else st
        else st
    img_follow_links cfg pageNet net decode pyHash fuel st url rest
termination_by fuel st url l => (fuel, l.length + 1)

end

/-- Source method `ImageDownloader._identify_priority_pages` (src/images.py
lines 355-395): keyword-matching same-domain links of the landing page; a
fetch failure leaves the priority list empty. -/
def identify_priority_pages (cfg : ImgConfig) (pageNet : ImgPageNet) (url : Url) :
    List Url :=
  match pageNet url with
  | none => []
  | some pg =>
    pg.anchors.foldl
      (fun acc a =>
        match a.href with
        | none => acc
        | some href =>
          if priority_keywords_identify.any
              (fun kw => isSub kw (pyStrip (lower a.text)) || isSub kw (lower href)) then
            let absolute := urljoin url href
            if (urlparse absolute).netloc == cfg.domain then acc ++ [absolute]
            else acc
          else acc)
      []

/-- Source method `ImageDownloader.crawl` (src/images.py lines 336-353):
reset state, identify priority pages, process the landing page, then each
priority page under the page cap. -/
def img_crawl (cfg : ImgConfig) (pageNet : ImgPageNet) (net : ImageDownloader.PipeNet)
    (decode : List Nat → Option (Nat × Nat)) (pyHash : Url → Nat) (fuel : Nat) :
    ImgState :=
  let st : ImgState := ⟨[], [], 0, [], []⟩
  let prio := identify_priority_pages cfg pageNet cfg.base_url
  let st := img_process_url cfg pageNet net decode pyHash fuel st cfg.base_url true
  prio.foldl
    (fun st u =>
      if u ∉ st.visited_urls ∧ st.visited_urls.length < cfg.max_pages then
        img_process_url cfg pageNet net decode pyHash fuel st u true
      else st)
    st

def thrCfg : ImgConfig := mkImageDownloader "http://h.com".data 800 600 1 20
def thrB : List Nat := List.replicate 1024 7
def thrB1 : List Nat := List.replicate 1023 7
def thrNet : AttemptNet :=
  ⟨fun _ => some ("image/jpeg".data, 1024),
   fun _ => .resp true "image/jpeg".data thrB, fun _ => .err⟩
def thrNet1 : AttemptNet :=
  ⟨fun _ => some ("image/jpeg".data, 0),
   fun _ => .resp true "image/jpeg".data thrB1, fun _ => .err⟩
def thrDecode : List Nat → Option (Nat × Nat) :=
  fun b => if b.length = 1024 then some (800, 600) else none
def thrDecodeW : List Nat → Option (Nat × Nat) :=
  fun b => if b.length = 1024 then some (799, 600) else none
def thrNetW : AttemptNet :=
  ⟨fun _ => some ("image/jpeg".data, 0),
   fun _ => .resp true "image/jpeg".data thrB, fun _ => .err⟩
def thrPNet : PipeNet := ⟨fun _ => .resp true "image/jpeg".data thrB⟩
def thrPNet1 : PipeNet := ⟨fun _ => .resp true "image/jpeg".data thrB1⟩
def thrState : ImgState := ⟨[], [], 0, [], []⟩
def thrUrl : Url := "http://h.com/a.jpg".data

def dedupB : List Nat := List.replicate 1024 7
def dedupCfg : ImgConfig := mkImageDownloader "http://h.com".data 1 1 1 20
def dedupNet : PipeNet :=
  ⟨fun u =>
    if u = "http://h.com/a.jpg".data ∨ u = "http://h.com/b.jpg".data then
      .resp true "image/jpeg".data dedupB
    else .err⟩
def dedupDecode : List Nat → Option (Nat × Nat) :=
  fun b => if b.length = 1024 then some (1, 1) else none
def dedupState : ImgState :=
  ⟨[], ["http://h.com/a.jpg".data, "http://h.com/b.jpg".data], 0, [], []⟩
def dedupANet : AttemptNet :=
  ⟨fun _ => some ("image/jpeg".data, 1024),
   fun _ => .resp true "image/jpeg".data dedupB,
   fun _ => .resp true "image/jpeg".data dedupB⟩
def dedupRS : RetryState := ⟨[], [], 0, 0, []⟩
def dedupRS1 : RetryState := ⟨[dedupB], [("a.jpg".data, dedupB)], 1, 1, []⟩

def retryB : List Nat := List.replicate 1024 7
def retryCfg : ImgConfig := mkImageDownloader "http://h.com".data 1 1 1 20
def retryNet : PipeNet :=
  ⟨fun u =>
    if u = "http://h.com/b.jpg".data then .resp true "image/jpeg".data retryB
    else .err⟩
def retryDecode : List Nat → Option (Nat × Nat) :=
  fun b => if b.length = 1024 then some (1, 1) else none
def retryState : ImgState :=
  ⟨[], ["http://h.com/a.jpg".data, "http://h.com/b.jpg".data], 0, [], []⟩
def retryANet : AttemptNet :=
  ⟨fun _ => some ("image/jpeg".data, 1024),
   fun _ => .resp true "image/jpeg".data retryB,
   fun _ => .err⟩
def retryRS : RetryState := ⟨[], [], 0, 0, []⟩

end ImageDownloader

/-! ### Model of the text crawler (`WebsiteScraper` in src/main.py) -/

namespace WebsiteScraper

/-- An anchor as the text crawler's queries read it: `href`, the anchor
text, the `class` list and the `src` of a contained `img`, if any. -/
structure Anchor where
  href : Url
  text : Url
  classes : List Url
  img_src : Option Url
deriving Repr, DecidableEq

/-- A fetched page as the crawler's BeautifulSoup queries observe it: all
href-carrying anchors in document order, the anchors grouped by the three
navigation-element lookups of `extract_header_menu_links` (by class, by
`role=navigation`, by id — consulted in that fallback order), and the text
that `_html_to_markdown` produces for the page. -/
structure Page where
  anchors : List Anchor
  navByClass : List (List Anchor)
  navByRole : List (List Anchor)
  navById : List (List Anchor)
  text : Url
deriving Repr, DecidableEq

/-- One page fetch outcome: a 200 response with a page, a non-200 status,
or a raised `requests` exception. -/
inductive FetchResult where
  | ok (pg : Page)
  | notOk
  | raise
deriving Repr, DecidableEq

/-- The network as the text crawler observes it. -/
abbrev PageNet := Url → FetchResult

/-- The mutable crawl-session state of `WebsiteScraper` plus two
instrumentation traces: `fetchTrace` records every page GET the session
issues (the seeding scan of `crawl`, the fetch inside `_process_url`, and
the language-subdomain expansion fetch), `procTrace` only those inside
`_process_url`.  The `language_subdomains` attribute is written but never
read by the source, so it is omitted. -/
structure ScrapeState where
  visited_urls : List Url
  markdown_content : List (Url × Url)
  main_page_links : List Url
  booking_urls_crawled : Nat
  booking_domains_seen : List Url
  fetchTrace : List Url
  procTrace : List Url
deriving Repr, DecidableEq

/-- The empty state a session starts from (`__init__`). -/
def initState : ScrapeState := ⟨[], [], [], 0, [], [], []⟩

/-- Source list `self.language_prefixes` (src/main.py line 60). -/
def language_prefixes : List Url :=
  ["en".data, "fr".data, "de".data, "es".data, "it".data, "nl".data,
   "pt".data, "ru".data, "zh".data, "ja".data, "ko".data]

/-- Source list `language_names` (src/main.py line 273). -/
def language_names : List Url :=
  ["english".data, "français".data, "deutsch".data, "español".data,
   "italiano".data, "en".data, "fr".data, "de".data, "es".data, "it".data]

/-- Source list `booking_indicators` (src/main.py line 211). -/
def booking_indicators : List Url :=
  ["book".data, "reserve".data, "booking".data, "reservation".data,
   "check availability".data]

/-- Source list `self.priority_paths` (src/main.py lines 41-57). -/
def priority_paths : List Url :=
  ["/rooms".data, "/suites".data, "/accommodations".data, "/lodging".data,
   "/facilities".data, "/amenities".data, "/services".data,
   "/photos".data, "/gallery".data, "/images".data,
   "/spa".data, "/restaurant".data, "/dining".data,
   "/en/rooms".data, "/en/suites".data, "/en/accommodations".data,
   "/en/facilities".data, "/en/amenities".data, "/en/photos".data,
   "/en/gallery".data, "/en/dining".data,
   "/fr/chambres".data, "/de/zimmer".data, "/es/habitaciones".data,
   "/it/camere".data,
   "/room-types".data, "/our-rooms".data, "/guest-rooms".data,
   "/our-suites".data, "/hotel-facilities".data, "/hotel-amenities".data,
   "/photo-gallery".data,
   "/booking".data, "/reserve".data, "/reservation".data, "/book-now".data,
   "/book".data, "/en/booking".data, "/en/reserve".data, "/en/book-now".data]

def isLowerAlpha (c : Char) : Bool := 'a' ≤ c ∧ c ≤ 'z'

/-- Model of `re.search(r'/[a-z]{2}(/|$)', href)` (src/main.py line 268):
some position starts a slash, two lowercase letters, then a slash or the end
of the string. -/
def hasLangSeg : Url → Bool
  | '/' :: a :: b :: rest =>
    (isLowerAlpha a && isLowerAlpha b
      && (rest.isEmpty || rest.headD ' ' = '/'))
    || hasLangSeg (a :: b :: rest)
  | _ :: rest => hasLangSeg rest
  | [] => false

/-- Model of `re.search(r'lang=[a-z]{2}', href)` (src/main.py line 268). -/
def hasLangEq : Url → Bool
  | 'l' :: 'a' :: 'n' :: 'g' :: '=' :: a :: b :: rest =>
    (isLowerAlpha a && isLowerAlpha b)
    || hasLangEq ('a' :: 'n' :: 'g' :: '=' :: a :: b :: rest)
  | _ :: rest => hasLangEq rest
  | [] => false

/-- The skip guard shared by the extraction loops (src/main.py 261, 318,
345, 519): empty, fragment-only, or javascript hrefs are discarded. -/
def skipHref (href : Url) : Bool :=
  href.isEmpty || "#".data.isPrefixOf href || "javascript:".data.isPrefixOf href

/-- The language-link test of `extract_language_variants` (src/main.py
lines 264-285). -/
def is_language_anchor (a : Anchor) : Bool :=
  hasLangSeg a.href || hasLangEq a.href
  || language_names.any (fun l => isSub l (pyStrip (lower a.text)))
  || (match a.img_src with
      | some s => isSub "flag".data (lower s) || isSub "lang".data (lower s)
      | none => false)
  || a.classes.any
      (fun c => isSub "lang".data (lower c) || isSub "language".data (lower c))

/-- Source method `WebsiteScraper.extract_language_variants` (src/main.py
lines 252-295). -/
def extract_language_variants (sc : Scraper) (pg : Page) (url : Url) : List Url :=
  pg.anchors.foldl
    (fun acc a =>
      if skipHref a.href then acc
      else if is_language_anchor a then
        if is_same_site sc (urljoin url a.href) then acc ++ [urljoin url a.href]
        else acc
      else acc)
    []

/-- Source method `WebsiteScraper.extract_header_menu_links` (src/main.py
lines 297-328): the three navigation lookups are consulted in fallback
order, then each contained anchor is joined and same-site filtered. -/
def extract_header_menu_links (sc : Scraper) (pg : Page) (url : Url) : List Url :=
  let navs :=
    if !pg.navByClass.isEmpty then pg.navByClass
    else if !pg.navByRole.isEmpty then pg.navByRole
    else pg.navById
  navs.foldl
    (fun acc nav =>
      nav.foldl
        (fun acc a =>
          if skipHref a.href then acc
          else if is_same_site sc (urljoin url a.href) then
            acc ++ [urljoin url a.href]
          else acc)
        acc)
    []

/-- Source method `WebsiteScraper.extract_booking_links` (src/main.py lines
206-232). -/
def extract_booking_links (pg : Page) (url : Url) : List Url :=
  pg.anchors.foldl
    (fun acc a =>
      if booking_indicators.any (fun i => isSub i (pyStrip (lower a.text)))
          || booking_indicators.any (fun i => isSub i (lower a.href))
          || a.classes.any (fun c => isSub "book".data (lower c)) then
        if (urlparse (urljoin url a.href)).netloc.isEmpty
            && ((urlparse (urljoin url a.href)).path.isEmpty
                || (urlparse (urljoin url a.href)).path = ['#']
                || isSub "javascript:".data a.href) then acc
        else acc ++ [urljoin url a.href]
      else acc)
    []

/-- Source method `WebsiteScraper.is_priority_url` (src/main.py lines
187-204); the write to the never-read `language_subdomains` set is dropped. -/
def is_priority_url (sc : Scraper) (st : ScrapeState) (url : Url) : Bool :=
  if language_prefixes.contains (tldextract url).subdomain then true
  else if potential_booking_domains.any
      (fun t => isSub t (lower (urlparse url).netloc)) then true
  else priority_paths.any (fun p => isSub p (lower (urlparse url).path))
    || st.main_page_links.contains url

/-- The fetch-and-extract part of `_process_url` (src/main.py lines
461-535), entered after the visited mark and the booking gate. -/
def _process_url_fetch (sc : Scraper) (net : PageNet) (st : ScrapeState)
    (url : Url) : ScrapeState × List Url :=
  let st := { st with fetchTrace := st.fetchTrace ++ [url],
                      procTrace := st.procTrace ++ [url] }
  match net url with
  | .raise => (st, [])
  | .notOk => (st, [])
  | .ok pg =>
    let st :=
      { st with markdown_content := dictInsert st.markdown_content url pg.text }
    let n1 := (extract_language_variants sc pg url).foldl
      (fun acc l =>
        if is_valid_url sc l then
          if normalize_url l ∈ st.visited_urls then acc
          else acc ++ [normalize_url l]
        else acc) []
    let n2 := (extract_header_menu_links sc pg url).foldl
      (fun acc l =>
        if is_valid_url sc l then
          if normalize_url l ∈ st.visited_urls then acc
          else acc ++ [normalize_url l]
        else acc) n1
    let n3 :=
      if st.booking_urls_crawled < sc.max_booking_urls then
        (extract_booking_links pg url).foldl
          (fun acc l =>
            if is_valid_url sc l then
              if normalize_url l ∈ st.visited_urls then acc
              else acc ++ [normalize_url l]
            else acc) n2
      else n2
    let n4 := pg.anchors.foldl
      (fun acc a =>
        if skipHref a.href then acc
        else if is_valid_url sc (urljoin url a.href) then
          if normalize_url (urljoin url a.href) ∉ st.visited_urls
              ∧ normalize_url (urljoin url a.href) ∉ acc then
            acc ++ [normalize_url (urljoin url a.href)]
          else acc
        else acc) n3
    (st, n4)

/-- Source method `WebsiteScraper._process_url` (src/main.py lines 437-535):
visited guard and mark on the normalized URL, then the booking-domain gate
(lines 447-459), then the fetch. -/
def _process_url (sc : Scraper) (net : PageNet) (st : ScrapeState)
    (url : Url) : ScrapeState × List Url :=
  if normalize_url url ∈ st.visited_urls then (st, [])
  else
    let st := { st with visited_urls := normalize_url url :: st.visited_urls }
    if is_booking_url url then
      if (urlparse url).netloc ∈ st.booking_domains_seen then
        if st.booking_urls_crawled ≥ sc.max_booking_urls then (st, [])
        else
          _process_url_fetch sc net
            { st with booking_urls_crawled := st.booking_urls_crawled + 1 } url
      else
        _process_url_fetch sc net
          { st with
              booking_domains_seen :=
                (urlparse url).netloc :: st.booking_domains_seen,
              booking_urls_crawled := st.booking_urls_crawled + 1 } url
    else _process_url_fetch sc net st url

/-- One candidate list filtered into the seeding priority queue
(src/main.py lines 352-376: valid, normalized, not yet visited). -/
def seedFilter (sc : Scraper) (st : ScrapeState) (links : List Url)
    (acc : List Url) : List Url :=
  links.foldl
    (fun acc l =>
      if is_valid_url sc l then
        if normalize_url l ∈ st.visited_urls then acc
        else acc ++ [normalize_url l]
      else acc)
    acc

/-- The `while urls_to_visit` loop of `crawl` (src/main.py lines 411-428):
stable sort by the priority key (a stable partition), pop, skip visited,
process, append unseen new URLs.  Fuel bounds the unbounded Python loop. -/
def crawl_loop (sc : Scraper) (net : PageNet) :
    Nat → ScrapeState → List Url → ScrapeState
  | 0, st, _ => st
  | fuel + 1, st, queue =>
    match queue.filter (fun u => is_priority_url sc st u) ++
        queue.filter (fun u => !is_priority_url sc st u) with
    | [] => st
    | u :: rest =>
      if u ∈ st.visited_urls then crawl_loop sc net fuel st rest
      else
        crawl_loop sc net fuel (_process_url sc net st u).1
          ((_process_url sc net st u).2.foldl
            (fun q n =>
              if n ∉ (_process_url sc net st u).1.visited_urls ∧ n ∉ q
              then q ++ [n] else q)
            rest)

/-- The language-subdomain expansion inside the priority loop (src/main.py
lines 386-408): a fresh GET of the subdomain page, whose menu links are
appended to `urls_to_visit`; failures are caught. -/
def subdomain_expand (sc : Scraper) (net : PageNet)
    (st : ScrapeState) (u : Url) (queue : List Url) :
    ScrapeState × List Url :=
  let st := { st with fetchTrace := st.fetchTrace ++ [u] }
  match net u with
  | .ok pg =>
    (st,
     (extract_header_menu_links sc pg u).foldl
       (fun q l =>
         if is_valid_url sc l && decide (l ∉ st.visited_urls) then
           q ++ [normalize_url l]
         else q)
       queue)
  | _ => (st, queue)

/-- The state after the landing-page fetch of `crawl` succeeds (src/main.py
lines 338-344): the GET is recorded and the main-page link set is collected
from every anchor of the landing page. -/
def crawlState1 (sc : Scraper) (pg : Page) : ScrapeState :=
  { initState with
      fetchTrace := [sc.base_url],
      main_page_links := pg.anchors.foldl
        (fun acc a =>
          if skipHref a.href then acc
          else if is_valid_url sc (urljoin sc.base_url a.href) then
            ImageDownloader.insertSet acc
              (normalize_url (urljoin sc.base_url a.href))
          else acc) [] }

/-- The seeding priority list of `crawl` (src/main.py lines 346-376):
language variants, then header/menu links, then booking links. -/
def crawlPrio (sc : Scraper) (pg : Page) : List Url :=
  seedFilter sc (crawlState1 sc pg) (extract_booking_links pg sc.base_url)
    (seedFilter sc (crawlState1 sc pg)
      (extract_header_menu_links sc pg sc.base_url)
      (seedFilter sc (crawlState1 sc pg)
        (extract_language_variants sc pg sc.base_url) []))

/-- One step of the priority loop of `crawl` (src/main.py lines 378-408):
process the priority URL (return value discarded) and, for a
language-prefixed subdomain, append its menu links to the queue. -/
def crawlSeedStep (sc : Scraper) (net : PageNet)
    (p : ScrapeState × List Url) (u : Url) : ScrapeState × List Url :=
  if u ∉ p.1.visited_urls then
    if language_prefixes.contains (tldextract u).subdomain then
      subdomain_expand sc net (_process_url sc net p.1 u).1 u p.2
    else ((_process_url sc net p.1 u).1, p.2)
  else p

/-- The whole seeding phase of `crawl` on a fetched landing page: the
seeding `_process_url` call on the base URL (return value discarded,
src/main.py line 384), then the priority loop over `crawlPrio`. -/
def crawlSeed (sc : Scraper) (net : PageNet) (pg : Page) :
    ScrapeState × List Url :=
  (crawlPrio sc pg).foldl (crawlSeedStep sc net)
    ((_process_url sc net (crawlState1 sc pg) sc.base_url).1, [sc.base_url])

/-- Source method `WebsiteScraper.crawl` (src/main.py lines 330-435): the
seeding scan of the landing page (main-page links, language variants, menu
links, booking links — the return values of the two `_process_url` calls in
the seeding phase are discarded, exactly as in the source), the priority
loop with language-subdomain expansion, then the main queue loop. -/
def crawl (sc : Scraper) (net : PageNet) (fuel : Nat) : ScrapeState :=
  match net sc.base_url with
  | .raise => { initState with fetchTrace := [sc.base_url] }
  | .notOk =>
    crawl_loop sc net fuel
      (_process_url sc net { initState with fetchTrace := [sc.base_url] }
        sc.base_url).1
      [sc.base_url]
  | .ok pg =>
    crawl_loop sc net fuel (crawlSeed sc net pg).1 (crawlSeed sc net pg).2

/-- The trace invariant: normalized fetch targets of `_process_url` are
pairwise distinct and all recorded in the visited set. -/
def TraceInv (st : ScrapeState) : Prop :=
  (st.procTrace.map normalize_url).Nodup ∧
  ∀ u ∈ st.procTrace, normalize_url u ∈ st.visited_urls

def capSc : Scraper := mkScraper "http://h.com".data 5
def capAnchor (p : Url) : Anchor := ⟨p, [], [], none⟩
def capPage : Page :=
  ⟨[capAnchor "/p0".data, capAnchor "/p1".data, capAnchor "/p2".data,
    capAnchor "/p3".data, capAnchor "/p4".data, capAnchor "/p5".data,
    capAnchor "/p6".data, capAnchor "/p7".data, capAnchor "/p8".data,
    capAnchor "/p9".data], [], [], [], "main".data⟩
def capNet : PageNet :=
  fun u => if u = "http://h.com".data then .ok capPage
           else .ok ⟨[], [], [], [], "sub".data⟩

def onceSc : Scraper := mkScraper "http://h.com".data 5
def oncePage : Page := ⟨[], [], [], [], "hello".data⟩
def onceNet : PageNet :=
  fun u => if u = "http://h.com".data then .ok oncePage else .notOk

def bkSc : Scraper := mkScraper "http://hotel.com".data 1
def bkAnchor (h : Url) : Anchor := ⟨h, "book now".data, [], none⟩
def bkPage : Page :=
  ⟨[bkAnchor "https://booking.hotel.com.aa.net".data,
    bkAnchor "https://booking.hotel.com.bb.net".data], [], [], [], "main".data⟩
def bkNet : PageNet :=
  fun u => if u = "http://hotel.com".data then .ok bkPage else .notOk
def bkState : ScrapeState :=
  { initState with booking_urls_crawled := 1,
                   booking_domains_seen := ["booking.hotel.com.aa.net".data] }

end WebsiteScraper

/-! ### Claim vocabulary and concrete fixtures -/

/-- Vocabulary of the claim: the query parameters it names volatile
(`lang`/`currency`/`sessionid`). -/
def claimVolatileKeys : List Url :=
  ["lang".data, "currency".data, "sessionid".data]

/-- Vocabulary of the claim: the parameter list of a query string (an empty
query has no parameters). -/
def queryParams (q : Url) : List Url := if q = [] then [] else q.splitOn '&'

/-- Vocabulary of the claim: two queries "differ only in their
lang/currency/sessionid parameters" exactly when these filtered lists agree. -/
def dropClaimVolatile (ps : List Url) : List Url :=
  ps.filter
    (fun p => !(claimVolatileKeys.contains (lower (WebsiteScraper.paramKey p))))

/-- The keep-condition of the `query_params` loop in `normalize_url`. -/
def codeKeep (p : Url) : Bool :=
  WebsiteScraper.paramHasEq p &&
    !(WebsiteScraper.volatileKeys.contains (lower (WebsiteScraper.paramKey p)))

/-! ### Helper lemmas about the URL model -/

lemma length_takeWhile_le (p : Char → Bool) (l : Url) :
    (l.takeWhile p).length ≤ l.length :=
  (List.takeWhile_sublist p).length_le

lemma takeWhile_length_lt_of_mem {p : Char → Bool} {u : Url} {c : Char}
    (hc : c ∈ u) (hpc : p c = false) : (u.takeWhile p).length < u.length := by
  induction u with
  | nil => cases hc
  | cons a t ih =>
    rw [List.takeWhile_cons]
    by_cases hpa : p a = true
    · rw [if_pos hpa]
      rcases List.mem_cons.mp hc with rfl | hct
      · rw [hpa] at hpc; cases hpc
      · simp only [List.length_cons]
        exact Nat.succ_lt_succ (ih hct)
    · rw [if_neg hpa]; simp

lemma takeWhile_append_of_mem {p : Char → Bool} {u : Url} {c : Char} (v : Url)
    (hc : c ∈ u) (hpc : p c = false) :
    (u ++ v).takeWhile p = u.takeWhile p := by
  rw [List.takeWhile_append, if_neg]
  exact Nat.ne_of_lt (takeWhile_length_lt_of_mem hc hpc)

lemma takeWhile_append_all {p : Char → Bool} {u : Url} (v : Url)
    (h : ∀ c ∈ u, p c = true) :
    (u ++ v).takeWhile p = u ++ v.takeWhile p := by
  have he : u.takeWhile p = u := List.takeWhile_eq_self_iff.mpr h
  rw [List.takeWhile_append, if_pos (by rw [he])]

lemma takeWhile_append_stop {p : Char → Bool} (u : Url) {c : Char}
    (hc : p c = false) : (u ++ [c]).takeWhile p = u.takeWhile p := by
  by_cases hall : ∀ x ∈ u, p x = true
  · rw [takeWhile_append_all _ hall, List.takeWhile_eq_self_iff.mpr hall,
      List.takeWhile_cons, if_neg (by simp [hc]), List.append_nil]
  · push_neg at hall
    obtain ⟨x, hx, hpx⟩ := hall
    exact takeWhile_append_of_mem _ hx (by simpa using hpx)

lemma stripFrag_of_not_mem {u : Url} (h : '#' ∉ u) : stripFrag u = u :=
  List.takeWhile_eq_self_iff.mpr
    (fun c hc => decide_eq_true (fun he => h (he ▸ hc)))

lemma stripFrag_append_hash (u f : Url) : stripFrag (u ++ '#' :: f) = stripFrag u := by
  by_cases hm : '#' ∈ u
  · exact takeWhile_append_of_mem _ hm (by simp)
  · unfold stripFrag
    have hall : ∀ c ∈ u, (decide (c ≠ '#')) = true :=
      fun c hc => decide_eq_true (fun he => hm (he ▸ hc))
    rw [takeWhile_append_all _ hall, List.takeWhile_cons,
      if_neg (by simp), List.append_nil, List.takeWhile_eq_self_iff.mpr hall]

lemma urlparse_append_hash (u f : Url) : urlparse (u ++ '#' :: f) = urlparse u := by
  unfold urlparse
  rw [stripFrag_append_hash]

lemma is_booking_url_congr {u1 u2 : Url} (h : urlparse u1 = urlparse u2) :
    WebsiteScraper.is_booking_url u1 = WebsiteScraper.is_booking_url u2 := by
  unfold WebsiteScraper.is_booking_url
  rw [h]

lemma normalize_url_congr {u1 u2 : Url} (h : urlparse u1 = urlparse u2) :
    WebsiteScraper.normalize_url u1 = WebsiteScraper.normalize_url u2 := by
  unfold WebsiteScraper.normalize_url
  rw [is_booking_url_congr h, h]

lemma splitScheme_append_slash (u : Url) :
    splitScheme (u ++ ['/']) = ((splitScheme u).1, (splitScheme u).2 ++ ['/']) := by
  unfold splitScheme
  by_cases hm : ':' ∈ u
  · have hpre : (u ++ ['/']).takeWhile (· ≠ ':') = u.takeWhile (· ≠ ':') :=
      takeWhile_append_of_mem _ hm (by simp)
    rw [hpre]
    have hlt : (u.takeWhile (· ≠ ':')).length < u.length :=
      takeWhile_length_lt_of_mem hm (by simp)
    have h1 : decide ((u.takeWhile (· ≠ ':')).length < (u ++ ['/']).length) = true := by
      simp only [List.length_append, List.length_cons, List.length_nil]
      exact decide_eq_true (Nat.lt_of_lt_of_le hlt (Nat.le_add_right _ _))
    have h2 : decide ((u.takeWhile (· ≠ ':')).length < u.length) = true :=
      decide_eq_true hlt
    rw [h1, h2]
    simp only [Bool.true_and]
    by_cases hrest : (!(u.takeWhile (· ≠ ':')).isEmpty &&
        (u.takeWhile (· ≠ ':')).all schemeChar &&
        ((u.takeWhile (· ≠ ':')).headD ' ').isAlpha) = true
    · rw [if_pos hrest, if_pos hrest]
      dsimp only
      rw [List.drop_append_of_le_length (Nat.succ_le_of_lt hlt)]
    · rw [if_neg hrest, if_neg hrest]
  · have hm2 : ':' ∉ u ++ ['/'] := by
      intro hx
      rcases List.mem_append.mp hx with h | h
      · exact hm h
      · simp at h
    have he1 : u.takeWhile (· ≠ ':') = u :=
      List.takeWhile_eq_self_iff.mpr
        (fun c hc => decide_eq_true (fun he => hm (he ▸ hc)))
    have he2 : (u ++ ['/']).takeWhile (· ≠ ':') = u ++ ['/'] :=
      List.takeWhile_eq_self_iff.mpr
        (fun c hc => decide_eq_true (fun he => hm2 (he ▸ hc)))
    rw [he1, he2]
    simp

lemma splitNetloc_append_slash (r : Url) :
    (splitNetloc (r ++ ['/'])).1 = (splitNetloc r).1 ∧
    ((splitNetloc (r ++ ['/'])).2 = (splitNetloc r).2 ++ ['/'] ∨
     (splitNetloc r).2 = (splitNetloc (r ++ ['/'])).2 ++ ['/']) := by
  match r with
  | [] =>
    constructor
    · rfl
    · left; rfl
  | [a] =>
    by_cases ha : a = '/'
    · subst ha
      constructor
      · rfl
      · right; rfl
    · have h1 : splitNetloc [a] = ([], [a]) := by
        unfold splitNetloc
        rw [if_neg (by intro hx; simp at hx)]
      have h2 : splitNetloc ([a] ++ ['/']) = ([], [a, '/']) := by
        unfold splitNetloc
        rw [if_neg (by
          intro hx
          exact ha (by simpa using congrArg (fun l => l.headD ' ') hx))]
        rfl
      rw [h1, h2]
      exact ⟨rfl, Or.inl rfl⟩
  | a :: b :: t =>
    have htake : (a :: b :: t ++ ['/']).take 2 = (a :: b :: t).take 2 := by simp
    by_cases hab : (a :: b :: t).take 2 = ['/', '/']
    · have ha : a = '/' := by simpa using congrArg (fun l => l.headD ' ') hab
      have hb : b = '/' := by
        simpa using congrArg (fun l => (l.drop 1).headD ' ') hab
      subst ha; subst hb
      have hnl : (t ++ ['/']).takeWhile (fun c => !netlocStop c) =
          t.takeWhile (fun c => !netlocStop c) :=
        takeWhile_append_stop t (by simp [netlocStop])
      unfold splitNetloc
      rw [if_pos (by simpa using hab), if_pos hab]
      simp only [List.cons_append, List.drop_succ_cons, List.drop_zero]
      rw [hnl]
      refine ⟨rfl, Or.inl ?_⟩
      exact List.drop_append_of_le_length (length_takeWhile_le _ t)
    · unfold splitNetloc
      rw [if_neg (by rw [show (a :: b :: t ++ ['/']) = (a :: b :: t) ++ ['/'] from rfl, htake]; exact hab), if_neg hab]
      exact ⟨rfl, Or.inl rfl⟩

lemma splitQuery_no_q {r : Url} (h : '?' ∉ r) : splitQuery r = (r, []) := by
  unfold splitQuery
  rw [if_neg]
  simpa using h

lemma mem_of_splitScheme_snd {c : Char} {u : Url} (h : c ∈ (splitScheme u).2) :
    c ∈ u := by
  unfold splitScheme at h
  split at h
  · exact List.drop_subset _ _ h
  · exact h

lemma mem_of_splitNetloc_snd {c : Char} {r : Url} (h : c ∈ (splitNetloc r).2) :
    c ∈ r := by
  unfold splitNetloc at h
  split at h
  · exact List.drop_subset _ _ (List.drop_subset _ _ h)
  · exact h

lemma rstripSlash_append_slash (s : Url) :
    rstripSlash (s ++ ['/']) = rstripSlash s := by
  unfold rstripSlash
  rw [List.reverse_append]
  simp [List.dropWhile_cons]

lemma rstripSlash_no_slash {s : Url} (h : s.getLast? ≠ some '/') :
    rstripSlash s = s := by
  unfold rstripSlash
  rcases hr : s.reverse with _ | ⟨c, t⟩
  · simp [List.reverse_eq_nil_iff.mp hr]
  · have hc : c ≠ '/' := by
      intro he
      apply h
      rw [List.getLast?_eq_head?_reverse, hr, he]
      rfl
    rw [List.dropWhile_cons, if_neg (by simp [hc]), ← hr, List.reverse_reverse]

lemma normalize_url_append_slash (u : Url) (hq : '?' ∉ u) :
    WebsiteScraper.normalize_url (u ++ ['/']) = WebsiteScraper.normalize_url u := by
  by_cases hh : '#' ∈ u
  · apply normalize_url_congr
    unfold urlparse
    rw [show stripFrag (u ++ ['/']) = stripFrag u from
      takeWhile_append_of_mem _ hh (by simp)]
  · have hh2 : '#' ∉ u ++ ['/'] := by
      intro hx
      rcases List.mem_append.mp hx with h | h
      · exact hh h
      · simp at h
    have hsf : stripFrag u = u := stripFrag_of_not_mem hh
    have hsf2 : stripFrag (u ++ ['/']) = u ++ ['/'] := stripFrag_of_not_mem hh2
    have hs := splitScheme_append_slash u
    have hqr : '?' ∉ (splitScheme u).2 := fun hc => hq (mem_of_splitScheme_snd hc)
    obtain ⟨hn1, hn2⟩ := splitNetloc_append_slash (splitScheme u).2
    have hq1 : '?' ∉ (splitNetloc (splitScheme u).2).2 :=
      fun hc => hqr (mem_of_splitNetloc_snd hc)
    have hq2 : '?' ∉ (splitNetloc ((splitScheme u).2 ++ ['/'])).2 := by
      intro hc
      have := mem_of_splitNetloc_snd hc
      rcases List.mem_append.mp this with h | h
      · exact hqr h
      · simp at h
    have hp1 : urlparse u =
        ⟨(splitScheme u).1, (splitNetloc (splitScheme u).2).1,
         (splitNetloc (splitScheme u).2).2, []⟩ := by
      unfold urlparse
      rw [hsf, splitQuery_no_q hq1]
    have hp2 : urlparse (u ++ ['/']) =
        ⟨(splitScheme u).1, (splitNetloc (splitScheme u).2).1,
         (splitNetloc ((splitScheme u).2 ++ ['/'])).2, []⟩ := by
      unfold urlparse
      rw [hsf2, hs, splitQuery_no_q hq2, hn1]
    unfold WebsiteScraper.normalize_url
    rw [hp1, hp2]
    simp only [List.isEmpty_nil, Bool.not_true, Bool.false_eq_true, if_false]
    unfold urlbase
    dsimp only
    rcases hn2 with h | h
    · rw [h, ← List.append_assoc]
      exact rstripSlash_append_slash _
    · rw [h, ← List.append_assoc]
      exact (rstripSlash_append_slash _).symm

/-- C6, corrected — counterexample: `"http://a.com/p?"` and the same string
with a trailing slash appended normalize differently (the slash lands in the
query, flipping the empty-query branch of `normalize_url`). -/
theorem normalize_url_trailing_slash_cex :
    WebsiteScraper.normalize_url ("http://a.com/p?".data ++ ['/']) ≠
      WebsiteScraper.normalize_url "http://a.com/p?".data := by decide

/-- C6 (amended): `normalize_url` is invariant under appending a fragment for
every URL, and invariant under appending a trailing slash for every URL that
contains no query marker `'?'`; with a `'?'` present the invariance can fail
(see the counterexample). -/
theorem normalize_url_fragment_slash_invariance :
    (∀ u f : Url, WebsiteScraper.normalize_url (u ++ '#' :: f) =
        WebsiteScraper.normalize_url u) ∧
    ∀ u : Url, '?' ∉ u → WebsiteScraper.normalize_url (u ++ ['/']) =
        WebsiteScraper.normalize_url u :=
  ⟨fun u f => normalize_url_congr (urlparse_append_hash u f),
   fun u hq => normalize_url_append_slash u hq⟩

/-- Witness for the C6 amended theorem at concrete URLs. -/
theorem normalize_url_fragment_slash_invariance_witness :
    WebsiteScraper.normalize_url ("http://a.com/p".data ++ '#' :: "sec".data) =
        WebsiteScraper.normalize_url "http://a.com/p".data ∧
    WebsiteScraper.normalize_url ("http://a.com/p".data ++ ['/']) =
        WebsiteScraper.normalize_url "http://a.com/p".data :=
  ⟨normalize_url_fragment_slash_invariance.1 _ _,
   normalize_url_fragment_slash_invariance.2 _ (by decide)⟩

/-! ### C7: booking query stripping -/

lemma buildQueryDict_eq_filter_aux (ps : List Url) (d : List (Url × Url)) :
    ps.foldl
      (fun d p => if codeKeep p then
        WebsiteScraper.dictInsert d (WebsiteScraper.paramKey p)
          (WebsiteScraper.paramVal p)
      else d) d =
    (ps.filter codeKeep).foldl
      (fun d p =>
        WebsiteScraper.dictInsert d (WebsiteScraper.paramKey p)
          (WebsiteScraper.paramVal p)) d := by
  induction ps generalizing d with
  | nil => rfl
  | cons p t ih =>
    by_cases hk : codeKeep p = true
    · rw [List.foldl_cons, if_pos hk, List.filter_cons, if_pos hk,
        List.foldl_cons]
      exact ih _
    · rw [List.foldl_cons, if_neg hk, List.filter_cons,
        if_neg hk]
      exact ih _

lemma buildQueryDict_eq_filter (ps : List Url) :
    WebsiteScraper.buildQueryDict ps =
      (ps.filter codeKeep).foldl
        (fun d p =>
          WebsiteScraper.dictInsert d (WebsiteScraper.paramKey p)
            (WebsiteScraper.paramVal p)) [] :=
  buildQueryDict_eq_filter_aux ps []

lemma codeKeep_imp_claimKeep {p : Url} (h : codeKeep p = true) :
    (!(claimVolatileKeys.contains (lower (WebsiteScraper.paramKey p)))) = true := by
  unfold codeKeep at h
  have h2 : WebsiteScraper.volatileKeys.contains
      (lower (WebsiteScraper.paramKey p)) = false := by
    rcases Bool.and_eq_true .. |>.mp h with ⟨_, hr⟩
    simpa using hr
  have hnm : lower (WebsiteScraper.paramKey p) ∉ WebsiteScraper.volatileKeys := by
    simpa using h2
  have hnc : lower (WebsiteScraper.paramKey p) ∉ claimVolatileKeys := by
    intro hm
    apply hnm
    have hd : lower (WebsiteScraper.paramKey p) = "lang".data ∨
        lower (WebsiteScraper.paramKey p) = "currency".data ∨
        lower (WebsiteScraper.paramKey p) = "sessionid".data := by
      simpa [claimVolatileKeys] using hm
    rcases hd with h | h | h <;> simp [WebsiteScraper.volatileKeys, h]
  simpa using hnc

lemma filter_codeKeep_dropClaimVolatile (ps : List Url) :
    ps.filter codeKeep = (dropClaimVolatile ps).filter codeKeep := by
  unfold dropClaimVolatile
  rw [List.filter_filter]
  apply List.filter_congr
  intro p _
  by_cases hk : codeKeep p = true
  · rw [hk, codeKeep_imp_claimKeep hk]
    rfl
  · rw [Bool.not_eq_true] at hk
    rw [hk, Bool.false_and]

lemma filter_codeKeep_queryParams (q : Url) :
    (q.splitOn '&').filter codeKeep = (queryParams q).filter codeKeep := by
  unfold queryParams
  split
  · rename_i hq
    subst hq
    rfl
  · rfl

lemma buildQueryDict_claim_congr {q1 q2 : Url}
    (h : dropClaimVolatile (queryParams q1) = dropClaimVolatile (queryParams q2)) :
    WebsiteScraper.buildQueryDict (q1.splitOn '&') =
      WebsiteScraper.buildQueryDict (q2.splitOn '&') := by
  rw [buildQueryDict_eq_filter, buildQueryDict_eq_filter,
    filter_codeKeep_queryParams, filter_codeKeep_queryParams,
    filter_codeKeep_dropClaimVolatile, h, ← filter_codeKeep_dropClaimVolatile]

/-- C7, corrected — counterexample: on the non-booking URL
`"http://a.com/p?q=x/"` the final `rstrip('/')` of `normalize_url` eats the
trailing slash of the query value, so the query string is not preserved
verbatim. -/
theorem normalize_url_nonbooking_query_cex :
    WebsiteScraper.is_booking_url "http://a.com/p?q=x/".data = false ∧
    WebsiteScraper.normalize_url "http://a.com/p?q=x/".data ≠
      urlbase (urlparse "http://a.com/p?q=x/".data) ++ '?' ::
        (urlparse "http://a.com/p?q=x/".data).query := by decide

/-- C7 (amended): two booking-classified URLs that agree on scheme, netloc
and path and whose query parameter lists agree after removing the
lang/currency/sessionid parameters normalize identically; a non-booking URL
whose query is nonempty and does not end in `'/'` keeps its full query string
verbatim (with a trailing `'/'` in the query, the final `rstrip('/')` can
drop it). -/
theorem normalize_url_booking_query_amended :
    (∀ u1 u2 : Url,
      WebsiteScraper.is_booking_url u1 = true →
      WebsiteScraper.is_booking_url u2 = true →
      (urlparse u1).scheme = (urlparse u2).scheme →
      (urlparse u1).netloc = (urlparse u2).netloc →
      (urlparse u1).path = (urlparse u2).path →
      dropClaimVolatile (queryParams (urlparse u1).query) =
        dropClaimVolatile (queryParams (urlparse u2).query) →
      WebsiteScraper.normalize_url u1 = WebsiteScraper.normalize_url u2) ∧
    ∀ u : Url, WebsiteScraper.is_booking_url u = false →
      (urlparse u).query ≠ [] → (urlparse u).query.getLast? ≠ some '/' →
      WebsiteScraper.normalize_url u =
        urlbase (urlparse u) ++ '?' :: (urlparse u).query := by
  constructor
  · intro u1 u2 hb1 hb2 h3 h4 h5 h6
    have hbase : urlbase (urlparse u1) = urlbase (urlparse u2) := by
      unfold urlbase
      rw [h3, h4, h5]
    have hdict := buildQueryDict_claim_congr h6
    unfold WebsiteScraper.normalize_url
    rw [hb1, hb2, hbase, hdict]
    rcases hq1 : (urlparse u1).query with _ | ⟨c1, t1⟩ <;>
      rcases hq2 : (urlparse u2).query with _ | ⟨c2, t2⟩
    · rfl
    · have hd : WebsiteScraper.buildQueryDict (List.splitOn '&' (c2 :: t2)) = [] := by
        rw [← hq2, ← hdict, hq1]
        rfl
      rw [hd]
      rfl
    · rfl
    · rfl
  · intro u hb hq hlast
    unfold WebsiteScraper.normalize_url
    rw [hb]
    rcases hqe : (urlparse u).query with _ | ⟨c, t⟩
    · exact absurd hqe hq
    · show rstripSlash (urlbase (urlparse u) ++ '?' :: c :: t) =
        urlbase (urlparse u) ++ '?' :: c :: t
      apply rstripSlash_no_slash
      rw [List.getLast?_append, List.getLast?_cons_cons]
      rw [hqe] at hlast
      rcases hx : (c :: t).getLast? with _ | x
      · exact absurd (List.getLast?_eq_none_iff.mp hx) (by simp)
      · rw [hx] at hlast
        simpa using hlast

/-- Witness for the C7 amended theorem at concrete URLs. -/
theorem normalize_url_booking_query_amended_witness :
    WebsiteScraper.normalize_url "https://booking.a.com/x?lang=en&rooms=2".data =
      WebsiteScraper.normalize_url "https://booking.a.com/x?rooms=2".data ∧
    WebsiteScraper.normalize_url "http://a.com/p?q=1".data =
      urlbase (urlparse "http://a.com/p?q=1".data) ++ '?' ::
        (urlparse "http://a.com/p?q=1".data).query :=
  ⟨normalize_url_booking_query_amended.1 _ _ (by decide) (by decide) (by decide)
      (by decide) (by decide) (by decide),
   normalize_url_booking_query_amended.2 _ (by decide) (by decide) (by decide)⟩

/-! ### C8: non-text extensions, C9: totality on malformed input -/

/-- C8, corrected — counterexample: a URL on an external booking domain
whose path ends in `".pdf"` is accepted by `is_valid_url`: the
external-booking branch returns before the file-extension check runs. -/
theorem is_valid_url_extension_cex :
    ".pdf".data.isSuffixOf (lower (urlparse
        "https://booking.hotel.com.partner.net/brochure.pdf".data).path) = true ∧
    WebsiteScraper.is_valid_url
      (WebsiteScraper.mkScraper "http://hotel.com".data 5)
      "https://booking.hotel.com.partner.net/brochure.pdf".data = true := by
  decide

/-- C8 (amended): the non-text-extension rejection holds for same-site URLs:
every URL on the crawl's own root domain whose lowercased path ends in one of
the listed document/image/stylesheet/script/archive extensions is rejected by
`is_valid_url`; a URL admitted through the external-booking branch skips this
check. -/
theorem is_valid_url_same_site_extension_rejected
    (sc : WebsiteScraper.Scraper) (url : Url) (ext : Url)
    (hext : ext ∈ WebsiteScraper.file_extensions)
    (hss : WebsiteScraper.is_same_site sc url = true)
    (hsuf : ext.isSuffixOf (lower (urlparse url).path) = true) :
    WebsiteScraper.is_valid_url sc url = false := by
  have hnl : (urlparse url).netloc.isEmpty = false := by
    unfold WebsiteScraper.is_same_site at hss
    by_cases h : (urlparse url).netloc.isEmpty = true
    · rw [if_pos h] at hss
      cases hss
    · simpa using h
  have hany : WebsiteScraper.file_extensions.any
      (fun ext => ext.isSuffixOf (lower (urlparse url).path)) = true :=
    List.any_eq_true.mpr ⟨ext, hext, hsuf⟩
  unfold WebsiteScraper.is_valid_url
  rw [hnl, hss, hany]
  rfl

/-- Witness for the C8 amended theorem at a concrete same-site PDF URL. -/
theorem is_valid_url_same_site_extension_rejected_witness :
    WebsiteScraper.is_valid_url
      (WebsiteScraper.mkScraper "http://hotel.com".data 5)
      "http://hotel.com/menu.pdf".data = false :=
  is_valid_url_same_site_extension_rejected _ _ ".pdf".data
    (by decide) (by decide) (by decide)

/-- C9, corrected — counterexample: the text crawler's scope classifier can
raise to its caller.  `WebsiteScraper.is_valid_url` calls `urlparse` with
no `try`/`except` (src/main.py lines 131, 144), and CPython's `urlsplit`
raises `ValueError("Invalid IPv6 URL")` on the bracket-unbalanced netloc
of `http://[x`, so the exception propagates out of the classifier; the
image classifier's bare `except` swallows the same error and classifies
the URL out of scope. -/
theorem is_valid_url_raise_cex :
    urlsplitRaises "http://[x".data = true ∧
    WebsiteScraper.is_valid_urlE
      (WebsiteScraper.mkScraper "http://hotel.com".data 5)
      "http://[x".data = .error () ∧
    ImageDownloader.is_valid_urlE "www.hotel.com".data "http://[x".data =
      .ok false :=
  ⟨rfl, rfl, rfl⟩

/-- C9 (amended): totality holds for the image classifier only —
`ImageDownloader.is_valid_url` always returns a classification to its
caller, its bare `except` turning a raising parse into out-of-scope; the
text classifier `WebsiteScraper.is_valid_url` raises to its caller exactly
on the inputs where `urlsplit` raises, and otherwise returns a
classification; and a malformed URL whose non-raising parse has no network
location is classified out-of-scope (`False`) by both. -/
theorem classifier_totality_amended :
    (∀ (d : Url) (url : Url), ∃ b : Bool,
      ImageDownloader.is_valid_urlE d url = .ok b) ∧
    (∀ (sc : WebsiteScraper.Scraper) (url : Url),
      WebsiteScraper.is_valid_urlE sc url = .error () ↔
        urlsplitRaises url = true) ∧
    (∀ (sc : WebsiteScraper.Scraper) (d : Url) (url : Url),
      (urlparse url).netloc = [] →
      WebsiteScraper.is_valid_urlE sc url = .ok false ∧
      ImageDownloader.is_valid_urlE d url = .ok false) := by
  refine ⟨?_, ?_, ?_⟩
  · intro d url
    exact ⟨_, rfl⟩
  · intro sc url
    unfold WebsiteScraper.is_valid_urlE
    by_cases h : urlsplitRaises url = true
    · rw [if_pos h]
      exact iff_of_true rfl h
    · rw [if_neg h]
      constructor
      · intro hc
        exact Except.noConfusion hc
      · intro ht
        exact absurd ht h
  · intro sc d url h
    have hr : urlsplitRaises url = false := by
      unfold urlsplitRaises
      rw [h]
      rfl
    constructor
    · have hv : WebsiteScraper.is_valid_url sc url = false := by
        unfold WebsiteScraper.is_valid_url
        rw [h]
        rfl
      unfold WebsiteScraper.is_valid_urlE
      rw [hr, hv]
      rfl
    · have hv : ImageDownloader.is_valid_url d url = false := by
        unfold ImageDownloader.is_valid_url
        rw [h]
        rfl
      unfold ImageDownloader.is_valid_urlE
      rw [hr, hv]
      rfl

/-- Witness for the C9 amended theorem at concrete inputs: a
scheme-relative path parses (without raising) with empty netloc and is
classified out of scope by both classifiers, and the
raises-iff-unbalanced-bracket characterization instantiated at a
well-formed URL. -/
theorem classifier_totality_amended_witness :
    (WebsiteScraper.is_valid_urlE
      (WebsiteScraper.mkScraper "http://hotel.com".data 5)
      "/rooms/suite".data = .ok false ∧
     ImageDownloader.is_valid_urlE "www.hotel.com".data
      "/rooms/suite".data = .ok false) ∧
    (WebsiteScraper.is_valid_urlE
      (WebsiteScraper.mkScraper "http://hotel.com".data 5)
      "http://a.com/p".data = .error () ↔
        urlsplitRaises "http://a.com/p".data = true) :=
  ⟨classifier_totality_amended.2.2 _ _ _ (by decide),
   classifier_totality_amended.2.1 _ _⟩

/-! ### C5: image qualification thresholds -/

namespace ImageDownloader

lemma sizeKbLt_eq_true_iff (n m : Nat) : sizeKbLt n m = true ↔ n < m * 1024 := by
  unfold sizeKbLt
  rw [decide_eq_true_eq, Rat.mkRat_eq_div, Rat.mkRat_eq_div]
  push_cast
  rw [div_lt_iff (by norm_num : (0 : ℚ) < 1024), div_one]
  constructor
  · intro h
    exact_mod_cast h
  · intro h
    exact_mod_cast h

/-- C5: both qualification paths treat the thresholds as inclusive lower
bounds with strict `<` rejection.  `get_image_info` (the `download_image`
path) and `_download_image` (the pipeline path) accept an image whose byte
size is exactly `min_size_kb * 1024` and whose decoded dimensions are exactly
`min_width × min_height` (with an image content type), and reject an image
one byte, one pixel of width, or one pixel of height short of a threshold. -/
theorem image_qualification_thresholds :
    (∀ (cfg : ImgConfig) (net : AttemptNet) decode u ct B,
      net.head u = some (ct, cfg.min_size_kb * 1024) →
      "image/".data.isPrefixOf ct = true →
      net.getInfo u = .resp true ct B →
      B.length = cfg.min_size_kb * 1024 →
      decode B = some (cfg.min_width, cfg.min_height) →
      get_image_info cfg net decode u =
        (true, ct, cfg.min_width, cfg.min_height, cfg.min_size_kb * 1024)) ∧
    (∀ (cfg : ImgConfig) (net : AttemptNet) decode u ct B,
      net.head u = some (ct, 0) →
      "image/".data.isPrefixOf ct = true →
      net.getInfo u = .resp true ct B →
      B.length + 1 = cfg.min_size_kb * 1024 →
      get_image_info cfg net decode u = (false, ct, 0, 0, B.length)) ∧
    (∀ (cfg : ImgConfig) (net : AttemptNet) decode u ct B w h,
      net.head u = some (ct, 0) →
      "image/".data.isPrefixOf ct = true →
      net.getInfo u = .resp true ct B →
      B.length = cfg.min_size_kb * 1024 →
      decode B = some (w, h) →
      (w + 1 = cfg.min_width ∨ h + 1 = cfg.min_height) →
      (get_image_info cfg net decode u).1 = false) ∧
    (∀ (cfg : ImgConfig) (net : PipeNet) decode pyHash (st : ImgState) u ct B,
      net.get u = .resp true ct B →
      "image/".data.isPrefixOf ct = true →
      B.length = cfg.min_size_kb * 1024 →
      decode B = some (cfg.min_width, cfg.min_height) →
      img_download_image cfg net decode pyHash st u =
        { st with getTrace := st.getTrace ++ [u],
                  files := writeFile st.files (pipe_filename pyHash u) B,
                  downloaded_count := st.downloaded_count + 1 }) ∧
    (∀ (cfg : ImgConfig) (net : PipeNet) decode pyHash (st : ImgState) u ct B,
      net.get u = .resp true ct B →
      B.length + 1 = cfg.min_size_kb * 1024 →
      img_download_image cfg net decode pyHash st u =
        { st with getTrace := st.getTrace ++ [u] }) ∧
    (∀ (cfg : ImgConfig) (net : PipeNet) decode pyHash (st : ImgState) u ct B w h,
      net.get u = .resp true ct B →
      B.length = cfg.min_size_kb * 1024 →
      decode B = some (w, h) →
      (w + 1 = cfg.min_width ∨ h + 1 = cfg.min_height) →
      img_download_image cfg net decode pyHash st u =
        { st with getTrace := st.getTrace ++ [u] }) := by
  refine ⟨?_, ?_, ?_, ?_, ?_, ?_⟩
  · intro cfg net decode u ct B hh hct hg hlen hdec
    unfold get_image_info
    simp [hh, hct, hg, hlen, hdec]
  · intro cfg net decode u ct B hh hct hg hlen
    have h2 : B.length < cfg.min_size_kb * 1024 := by omega
    unfold get_image_info
    simp [hh, hct, hg, h2]
  · intro cfg net decode u ct B w h hh hct hg hlen hdec hone
    have h3 : (w < cfg.min_width || h < cfg.min_height) = true := by
      rcases hone with ho | ho
      · simp only [Bool.or_eq_true, decide_eq_true_eq]
        left
        omega
      · simp only [Bool.or_eq_true, decide_eq_true_eq]
        right
        omega
    unfold get_image_info
    simp [hh, hct, hg, hlen, hdec, h3]
  · intro cfg net decode pyHash st u ct B hg hct hlen hdec
    have hsz : sizeKbLt B.length cfg.min_size_kb = false := by
      rw [← Bool.not_eq_true, sizeKbLt_eq_true_iff]
      omega
    unfold img_download_image
    simp [hg, hct, hsz, hdec]
  · intro cfg net decode pyHash st u ct B hg hlen
    have hsz : sizeKbLt B.length cfg.min_size_kb = true := by
      rw [sizeKbLt_eq_true_iff]
      omega
    unfold img_download_image
    by_cases hct : "image/".data.isPrefixOf ct = true
    · simp [hg, hct, hsz]
    · simp [hg, hct]
  · intro cfg net decode pyHash st u ct B w h hg hlen hdec hone
    have hsz : sizeKbLt B.length cfg.min_size_kb = false := by
      rw [← Bool.not_eq_true, sizeKbLt_eq_true_iff]
      omega
    have h3 : (w < cfg.min_width || h < cfg.min_height) = true := by
      rcases hone with ho | ho
      · simp only [Bool.or_eq_true, decide_eq_true_eq]
        left
        omega
      · simp only [Bool.or_eq_true, decide_eq_true_eq]
        right
        omega
    unfold img_download_image
    by_cases hct : "image/".data.isPrefixOf ct = true
    · simp [hg, hct, hsz, hdec, h3]
    · simp [hg, hct]

/-! ### C5 witness material -/

set_option maxRecDepth 40000 in
/-- Witness for C5 at a concrete 1 KB / 800×600 configuration: exact
thresholds accepted on both paths, one byte or one pixel under rejected. -/
theorem image_qualification_thresholds_witness :
    get_image_info thrCfg thrNet thrDecode thrUrl =
      (true, "image/jpeg".data, 800, 600, 1024) ∧
    get_image_info thrCfg thrNet1 thrDecode thrUrl =
      (false, "image/jpeg".data, 0, 0, 1023) ∧
    (get_image_info thrCfg thrNetW thrDecodeW thrUrl).1 = false ∧
    img_download_image thrCfg thrPNet thrDecode (fun _ => 0) thrState thrUrl =
      { thrState with getTrace := thrState.getTrace ++ [thrUrl],
                      files := writeFile thrState.files
                        (pipe_filename (fun _ => 0) thrUrl) thrB,
                      downloaded_count := thrState.downloaded_count + 1 } ∧
    img_download_image thrCfg thrPNet1 thrDecode (fun _ => 0) thrState thrUrl =
      { thrState with getTrace := thrState.getTrace ++ [thrUrl] } ∧
    img_download_image thrCfg thrPNet thrDecodeW (fun _ => 0) thrState thrUrl =
      { thrState with getTrace := thrState.getTrace ++ [thrUrl] } :=
  ⟨image_qualification_thresholds.1 thrCfg thrNet thrDecode thrUrl
      "image/jpeg".data thrB rfl (by decide) rfl (by decide) (by decide),
   image_qualification_thresholds.2.1 thrCfg thrNet1 thrDecode thrUrl
      "image/jpeg".data thrB1 rfl (by decide) rfl (by decide),
   image_qualification_thresholds.2.2.1 thrCfg thrNetW thrDecodeW thrUrl
      "image/jpeg".data thrB 799 600 rfl (by decide) rfl (by decide) (by decide)
      (Or.inl (by decide)),
   image_qualification_thresholds.2.2.2.1 thrCfg thrPNet thrDecode (fun _ => 0)
      thrState thrUrl "image/jpeg".data thrB rfl (by decide) (by decide) (by decide),
   image_qualification_thresholds.2.2.2.2.1 thrCfg thrPNet1 thrDecode (fun _ => 0)
      thrState thrUrl "image/jpeg".data thrB1 rfl (by decide),
   image_qualification_thresholds.2.2.2.2.2 thrCfg thrPNet thrDecodeW (fun _ => 0)
      thrState thrUrl "image/jpeg".data thrB 799 600 rfl (by decide) (by decide)
      (Or.inl (by decide))⟩

/-! ### C1: content-hash deduplication -/

set_option maxRecDepth 40000 in
/-- C1, corrected — counterexample: the crawl pipeline downloads candidates
through `_download_image`, which computes no content hash; two distinct URLs
serving byte-identical qualifying content are both written, producing two
stored files with identical bytes and no content-hash record. -/
theorem image_dedup_pipeline_cex :
    (img_download_images dedupCfg dedupNet dedupDecode (fun _ => 0)
        dedupState).files =
      [("a.jpg".data, dedupB), ("b.jpg".data, dedupB)] ∧
    (img_download_images dedupCfg dedupNet dedupDecode (fun _ => 0)
        dedupState).downloaded_count = 2 :=
  ⟨rfl, rfl⟩

/-- C1 (amended): content-hash deduplication holds on the `download_image`
path, which the crawl pipeline never invokes: a fetch whose body is already
in the hash set is discarded without a write and without a count increment,
and a fetch with a new body records exactly one hash entry and one file.
The pipeline path (`_download_image`) has no such check (see the
counterexample). -/
theorem image_dedup_download_image_amended :
    (∀ (cfg : ImgConfig) netSeq decode hashHex (st : RetryState) u m ct w h s ok ct2 B,
      get_image_info cfg (netSeq 0) decode (urljoin cfg.base_url u) =
        (true, ct, w, h, s) →
      (netSeq 0).getMain (urljoin cfg.base_url u) = .resp ok ct2 B →
      B ∈ st.image_urls →
      download_image cfg netSeq decode hashHex (m + 1) u st =
        ({ st with attempts := st.attempts + 1 }, false)) ∧
    (∀ (cfg : ImgConfig) netSeq decode hashHex (st : RetryState) u m ct w h s ok ct2 B,
      get_image_info cfg (netSeq 0) decode (urljoin cfg.base_url u) =
        (true, ct, w, h, s) →
      (netSeq 0).getMain (urljoin cfg.base_url u) = .resp ok ct2 B →
      B ∉ st.image_urls →
      download_image cfg netSeq decode hashHex (m + 1) u st =
        ({ st with attempts := st.attempts + 1,
                   image_urls := B :: st.image_urls,
                   files := writeFile st.files
                     (download_filename hashHex (urljoin cfg.base_url u) ct B) B,
                   downloaded_count := st.downloaded_count + 1 }, true)) := by
  constructor
  · intro cfg netSeq decode hashHex st u m ct w h s ok ct2 B hinfo hget hmem
    unfold download_image download_image_go
    simp [hinfo, hget, hmem]
  · intro cfg netSeq decode hashHex st u m ct w h s ok ct2 B hinfo hget hmem
    unfold download_image download_image_go
    simp [hinfo, hget, hmem]

set_option maxRecDepth 40000 in
/-- Witness for the C1 amended theorem: a first `download_image` call stores
the file and the hash, a second call fetching the same bytes is a no-op. -/
theorem image_dedup_download_image_amended_witness :
    download_image dedupCfg (fun _ => dedupANet) dedupDecode (fun _ => "ff".data)
        3 "http://h.com/b.jpg".data dedupRS1 =
      ({ dedupRS1 with attempts := dedupRS1.attempts + 1 }, false) ∧
    download_image dedupCfg (fun _ => dedupANet) dedupDecode (fun _ => "ff".data)
        3 "http://h.com/a.jpg".data dedupRS =
      ({ dedupRS with attempts := dedupRS.attempts + 1,
                      image_urls := dedupB :: dedupRS.image_urls,
                      files := writeFile dedupRS.files
                        (download_filename (fun _ => "ff".data)
                          (urljoin dedupCfg.base_url "http://h.com/a.jpg".data)
                          "image/jpeg".data dedupB) dedupB,
                      downloaded_count := dedupRS.downloaded_count + 1 }, true) :=
  ⟨image_dedup_download_image_amended.1 dedupCfg (fun _ => dedupANet) dedupDecode
      (fun _ => "ff".data) dedupRS1 "http://h.com/b.jpg".data 2 "image/jpeg".data
      1 1 1024 true "image/jpeg".data dedupB (by decide) rfl (by decide),
   image_dedup_download_image_amended.2 dedupCfg (fun _ => dedupANet) dedupDecode
      (fun _ => "ff".data) dedupRS "http://h.com/a.jpg".data 2 "image/jpeg".data
      1 1 1024 true "image/jpeg".data dedupB (by decide) rfl (by decide)⟩

/-! ### C10: retry with capped exponential backoff -/

lemma img_download_image_getTrace (cfg : ImgConfig) (net : PipeNet) (decode)
    (pyHash) (st : ImgState) (u : Url) :
    (img_download_image cfg net decode pyHash st u).getTrace =
      st.getTrace ++ [u] := by
  unfold img_download_image
  rcases net.get u with _ | ⟨ok, ct, body⟩
  · rfl
  · dsimp only
    rcases decode body with _ | ⟨w, h⟩ <;>
      repeat' first
        | rfl
        | split

lemma img_download_images_getTrace (cfg : ImgConfig) (net : PipeNet) (decode)
    (pyHash) (st : ImgState) :
    (img_download_images cfg net decode pyHash st).getTrace =
      st.getTrace ++ st.image_urls := by
  unfold img_download_images
  dsimp only
  suffices h : ∀ (urls : List Url) (s : ImgState),
      (urls.foldl (img_download_image cfg net decode pyHash) s).getTrace =
        s.getTrace ++ urls by
    rw [h]
  intro urls
  induction urls with
  | nil =>
    intro s
    simp
  | cons u rest ih =>
    intro s
    rw [List.foldl_cons, ih, img_download_image_getTrace]
    simp

lemma pow_range_shift (a r : Nat) :
    2 ^ a :: (List.range r).map (fun i => 2 ^ (a + 1 + i)) =
      (List.range (r + 1)).map (fun i => 2 ^ (a + i)) := by
  rw [List.range_succ_eq_map, List.map_cons, Nat.add_zero, List.map_map]
  congr 1
  apply List.map_congr_left
  intro i _
  simp only [Function.comp_apply]
  congr 1
  omega

lemma download_image_go_all_fail (cfg : ImgConfig) (netSeq : Nat → AttemptNet)
    (decode) (hashHex) (ju : Url)
    (hj : urljoin cfg.base_url ju = ju)
    (hinfo : ∀ i, (get_image_info cfg (netSeq i) decode ju).1 = true)
    (hmain : ∀ i, (netSeq i).getMain ju = .err) :
    ∀ (m attempt : Nat) (st : RetryState),
      download_image_go cfg netSeq decode hashHex m attempt ju st =
        ({ st with attempts := st.attempts + m,
                   sleeps := st.sleeps ++
                     (List.range (m - 1)).map (fun i => 2 ^ (attempt + i)) }, false) := by
  intro m
  induction m with
  | zero =>
    intro attempt st
    simp [download_image_go]
  | succ r ih =>
    intro attempt st
    rcases hgi : get_image_info cfg (netSeq attempt) decode ju with ⟨b, ct, w, h, s0⟩
    have hb : b = true := by
      have h1 := hinfo attempt
      rw [hgi] at h1
      exact h1
    subst hb
    unfold download_image_go
    dsimp only
    rw [hj, hgi, hmain attempt]
    dsimp only
    cases r with
    | zero =>
      simp
    | succ r2 =>
      dsimp only
      rw [ih]
      have hslp : (st.sleeps ++ [2 ^ attempt]) ++
          (List.range (r2 + 1 - 1)).map (fun i => 2 ^ (attempt + 1 + i)) =
          st.sleeps ++ (List.range (r2 + 1 + 1 - 1)).map (fun i => 2 ^ (attempt + i)) := by
        rw [List.append_assoc,
          show r2 + 1 - 1 = r2 from rfl, show r2 + 1 + 1 - 1 = r2 + 1 from rfl,
          List.singleton_append, pow_range_shift]
      have hatp : st.attempts + 1 + (r2 + 1) = st.attempts + (r2 + 1 + 1) := by omega
      dsimp only
      rw [Prod.mk.injEq]
      constructor
      · simp [RetryState.mk.injEq, hatp, hslp, pow_range_shift]
      · rfl

set_option maxRecDepth 40000 in
/-- C10, corrected — counterexample: the crawl pipeline downloads candidates
through `_download_image`, which issues exactly one GET per candidate and
performs no retry and no backoff wait on a network failure; the failing
candidate is simply skipped while its sibling is still downloaded. -/
theorem image_retry_pipeline_cex :
    (img_download_images retryCfg retryNet retryDecode (fun _ => 0)
        retryState).getTrace =
      ["http://h.com/a.jpg".data, "http://h.com/b.jpg".data] ∧
    (img_download_images retryCfg retryNet retryDecode (fun _ => 0)
        retryState).files = [("b.jpg".data, retryB)] ∧
    (img_download_images retryCfg retryNet retryDecode (fun _ => 0)
        retryState).downloaded_count = 1 :=
  ⟨rfl, rfl, rfl⟩

/-- C10 (amended): capped exponential backoff lives only in the
`download_image` method, which the crawl pipeline never calls: when every
attempt's GET raises a retryable failure, `download_image` makes exactly
`max_retries` attempts, sleeping `2^0, 2^1, …` between consecutive attempts,
then gives up returning `False` with no file written; the pipeline path
issues exactly one GET per candidate (never aborting the remaining
candidates), with no retry and no backoff. -/
theorem image_retry_backoff_amended :
    (∀ (cfg : ImgConfig) (netSeq : Nat → AttemptNet) decode hashHex
        (ju : Url) (st : RetryState) (max_retries : Nat),
      urljoin cfg.base_url ju = ju →
      (∀ i, (get_image_info cfg (netSeq i) decode ju).1 = true) →
      (∀ i, (netSeq i).getMain ju = .err) →
      download_image cfg netSeq decode hashHex max_retries ju st =
        ({ st with attempts := st.attempts + max_retries,
                   sleeps := st.sleeps ++
                     (List.range (max_retries - 1)).map (fun i => 2 ^ i) }, false)) ∧
    (∀ (cfg : ImgConfig) (net : PipeNet) decode pyHash (st : ImgState),
      (img_download_images cfg net decode pyHash st).getTrace =
        st.getTrace ++ st.image_urls) := by
  constructor
  · intro cfg netSeq decode hashHex ju st max_retries hj hinfo hmain
    unfold download_image
    rw [download_image_go_all_fail cfg netSeq decode hashHex ju hj hinfo hmain]
    simp only [Nat.zero_add]
  · intro cfg net decode pyHash st
    exact img_download_images_getTrace cfg net decode pyHash st

set_option maxRecDepth 40000 in
/-- Witness for the C10 amended theorem: with three attempts all failing,
`download_image` sleeps 1 s then 2 s and returns `False`; the pipeline
attempts each of two candidates exactly once. -/
theorem image_retry_backoff_amended_witness :
    download_image retryCfg (fun _ => retryANet) retryDecode (fun _ => "ff".data)
        3 "http://h.com/a.jpg".data retryRS =
      ({ retryRS with attempts := retryRS.attempts + 3,
                      sleeps := retryRS.sleeps ++
                        (List.range 2).map (fun i => 2 ^ i) }, false) ∧
    (img_download_images retryCfg retryNet retryDecode (fun _ => 0)
        retryState).getTrace = retryState.getTrace ++ retryState.image_urls := by
  have h1 : (get_image_info retryCfg retryANet retryDecode
      "http://h.com/a.jpg".data).1 = true := by decide
  exact ⟨image_retry_backoff_amended.1 retryCfg (fun _ => retryANet) retryDecode
      (fun _ => "ff".data) "http://h.com/a.jpg".data retryRS 3 (by decide)
      (fun _ => h1) (fun _ => rfl),
    image_retry_backoff_amended.2 retryCfg retryNet retryDecode (fun _ => 0)
      retryState⟩

end ImageDownloader

/-! ### C2: page cap -/

namespace ImageDownloader

lemma img_download_image_visited (cfg : ImgConfig) (net : PipeNet) (decode)
    (pyHash) (st : ImgState) (u : Url) :
    (img_download_image cfg net decode pyHash st u).visited_urls =
      st.visited_urls := by
  unfold img_download_image
  rcases net.get u with _ | ⟨ok, ct, body⟩
  · rfl
  · dsimp only
    rcases decode body with _ | ⟨w, h⟩ <;>
      repeat' first
        | rfl
        | split

lemma img_download_images_visited (cfg : ImgConfig) (net : PipeNet) (decode)
    (pyHash) (st : ImgState) :
    (img_download_images cfg net decode pyHash st).visited_urls =
      st.visited_urls := by
  unfold img_download_images
  dsimp only
  suffices h : ∀ (urls : List Url) (s : ImgState),
      (urls.foldl (img_download_image cfg net decode pyHash) s).visited_urls =
        s.visited_urls by
    rw [h]
  intro urls
  induction urls with
  | nil =>
    intro s
    rfl
  | cons u rest ih =>
    intro s
    rw [List.foldl_cons, ih, img_download_image_visited]

lemma img_visited_le (cfg : ImgConfig) (pageNet : ImgPageNet)
    (net : PipeNet) (decode) (pyHash) :
    ∀ fuel : Nat,
      (∀ (st : ImgState) url p, st.visited_urls.length ≤ cfg.max_pages →
        (img_process_url cfg pageNet net decode pyHash fuel st url p).visited_urls.length ≤
          cfg.max_pages) ∧
      (∀ (st : ImgState) url l, st.visited_urls.length ≤ cfg.max_pages →
        (img_follow_links cfg pageNet net decode pyHash fuel st url l).visited_urls.length ≤
          cfg.max_pages) := by
  intro fuel
  induction fuel with
  | zero =>
    have hp : ∀ (st : ImgState) url p, st.visited_urls.length ≤ cfg.max_pages →
        (img_process_url cfg pageNet net decode pyHash 0 st url p).visited_urls.length ≤
          cfg.max_pages := by
      intro st url p h
      simpa [img_process_url] using h
    refine ⟨hp, ?_⟩
    intro st url l
    induction l generalizing st with
    | nil =>
      intro h
      simpa [img_follow_links] using h
    | cons a rest ih =>
      intro h
      rw [img_follow_links]
      apply ih
      rcases a.href with _ | href
      · exact h
      · dsimp only
        split
        · split
          · exact hp _ _ _ h
          · exact h
        · exact h
  | succ n ihn =>
    have hp : ∀ (st : ImgState) url p, st.visited_urls.length ≤ cfg.max_pages →
        (img_process_url cfg pageNet net decode pyHash (n + 1) st url p).visited_urls.length ≤
          cfg.max_pages := by
      intro st url p h
      rw [img_process_url]
      by_cases hcap : st.visited_urls.length ≥ cfg.max_pages
      · rw [if_pos hcap]
        exact h
      · rw [if_neg hcap]
        by_cases hv : url ∈ st.visited_urls
        · rw [if_pos hv]
          exact h
        · rw [if_neg hv]
          have hlen : (url :: st.visited_urls).length ≤ cfg.max_pages := by
            simp only [List.length_cons]
            omega
          rcases hnet : pageNet url with _ | pg
          · rw [img_download_images_visited]
            exact hlen
          · dsimp only
            rw [img_download_images_visited]
            split
            · exact ihn.2 _ _ _ hlen
            · exact hlen
    refine ⟨hp, ?_⟩
    intro st url l
    induction l generalizing st with
    | nil =>
      intro h
      simpa [img_follow_links] using h
    | cons a rest ih =>
      intro h
      rw [img_follow_links]
      apply ih
      rcases a.href with _ | href
      · exact h
      · dsimp only
        split
        · split
          · exact hp _ _ _ h
          · exact h
        · exact h

/-- C2 (amended, part proved): the configured page cap bounds the image
crawler — in every run of `ImageDownloader.crawl`, whatever the network,
decoder and recursion depth, the visited set never exceeds `max_pages`
pages.  The text crawler has no page cap (see the counterexample). -/
theorem page_cap_image_crawl_amended (cfg : ImgConfig) (pageNet : ImgPageNet)
    (net : PipeNet) (decode : List Nat → Option (Nat × Nat))
    (pyHash : Url → Nat) (fuel : Nat) :
    (img_crawl cfg pageNet net decode pyHash fuel).visited_urls.length ≤
      cfg.max_pages := by
  unfold img_crawl
  dsimp only
  have hp := (img_visited_le cfg pageNet net decode pyHash fuel).1
  have hstart : (img_process_url cfg pageNet net decode pyHash fuel
      ⟨[], [], 0, [], []⟩ cfg.base_url true).visited_urls.length ≤ cfg.max_pages := by
    apply hp
    simp
  generalize identify_priority_pages cfg pageNet cfg.base_url = prio
  generalize img_process_url cfg pageNet net decode pyHash fuel
      ⟨[], [], 0, [], []⟩ cfg.base_url true = st0 at hstart ⊢
  induction prio generalizing st0 with
  | nil => exact hstart
  | cons u rest ih =>
    rw [List.foldl_cons]
    apply ih
    split
    · exact hp _ _ _ hstart
    · exact hstart

end ImageDownloader

namespace WebsiteScraper

/-- C2, corrected — counterexample: the text crawl has no page cap at all,
and with 10 discoverable (valid, same-site) links on the landing page the
final url-to-text mapping holds exactly 1 entry, not 3: `crawl` discards the
link lists returned by its seeding calls to `_process_url`, so plain links
never enter the work queue. -/
theorem page_cap_text_crawl_cex :
    capPage.anchors.length = 10 ∧
    capPage.anchors.all
      (fun a => is_valid_url capSc (urljoin capSc.base_url a.href)) = true ∧
    (crawl capSc capNet 50).markdown_content.length = 1 := by
  refine ⟨rfl, by decide, ?_⟩
  rfl

/-! ### C3 / C4: visitation and booking throttle -/

lemma _process_url_fetch_fields (sc : Scraper) (net : PageNet)
    (st : ScrapeState) (url : Url) :
    (_process_url_fetch sc net st url).1.visited_urls = st.visited_urls ∧
    (_process_url_fetch sc net st url).1.procTrace = st.procTrace ++ [url] ∧
    (_process_url_fetch sc net st url).1.booking_urls_crawled =
      st.booking_urls_crawled ∧
    (_process_url_fetch sc net st url).1.booking_domains_seen =
      st.booking_domains_seen := by
  unfold _process_url_fetch
  rcases net url with pg | _ | _ <;> exact ⟨rfl, rfl, rfl, rfl⟩

lemma subdomain_expand_fields (sc : Scraper) (net : PageNet)
    (st : ScrapeState) (u : Url) (q : List Url) :
    (subdomain_expand sc net st u q).1.visited_urls = st.visited_urls ∧
    (subdomain_expand sc net st u q).1.procTrace = st.procTrace := by
  unfold subdomain_expand
  rcases net u with pg | _ | _ <;> exact ⟨rfl, rfl⟩

lemma _process_url_visited_mono (sc : Scraper) (net : PageNet)
    (st : ScrapeState) (url : Url) :
    st.visited_urls ⊆ (_process_url sc net st url).1.visited_urls := by
  unfold _process_url
  by_cases hv : normalize_url url ∈ st.visited_urls
  · rw [if_pos hv]
    exact List.Subset.refl _
  · rw [if_neg hv]
    dsimp only
    have hsub : st.visited_urls ⊆ normalize_url url :: st.visited_urls :=
      List.subset_cons_self _ _
    split
    · split
      · split
        · exact hsub
        · rw [(_process_url_fetch_fields sc net _ url).1]
          exact hsub
      · rw [(_process_url_fetch_fields sc net _ url).1]
        exact hsub
    · rw [(_process_url_fetch_fields sc net _ url).1]
      exact hsub

lemma crawl_loop_visited_mono (sc : Scraper) (net : PageNet) :
    ∀ (fuel : Nat) (st : ScrapeState) (q : List Url),
      st.visited_urls ⊆ (crawl_loop sc net fuel st q).visited_urls := by
  intro fuel
  induction fuel with
  | zero =>
    intro st q
    rw [crawl_loop]
    exact List.Subset.refl _
  | succ n ih =>
    intro st q
    rw [crawl_loop]
    rcases hsort : q.filter (fun u => is_priority_url sc st u) ++
        q.filter (fun u => !is_priority_url sc st u) with _ | ⟨u, rest⟩
    · exact List.Subset.refl _
    · dsimp only
      split
      · exact ih _ _
      · exact fun x hx => ih _ _ (_process_url_visited_mono sc net st u hx)

lemma _process_url_TraceInv (sc : Scraper) (net : PageNet)
    (st : ScrapeState) (url : Url) (h : TraceInv st) :
    TraceInv (_process_url sc net st url).1 := by
  have hfetch : ∀ st' : ScrapeState,
      st'.visited_urls = normalize_url url :: st.visited_urls →
      st'.procTrace = st.procTrace →
      normalize_url url ∉ st.visited_urls →
      TraceInv (_process_url_fetch sc net st' url).1 := by
    intro st' hv hp hnv
    obtain ⟨h1, h2, _, _⟩ := _process_url_fetch_fields sc net st' url
    constructor
    · rw [h2, hp, List.map_append, List.map_singleton]
      rw [List.nodup_append]
      refine ⟨h.1, List.nodup_singleton _, ?_⟩
      intro x hx hx2
      rcases List.mem_map.mp hx with ⟨u0, hu0, hnx⟩
      rcases List.mem_singleton.mp hx2 with rfl
      exact hnv (hnx ▸ h.2 u0 hu0)
    · intro u hu
      rw [h2, hp] at hu
      rw [h1, hv]
      rcases List.mem_append.mp hu with h3 | h3
      · exact List.mem_cons_of_mem _ (h.2 u h3)
      · rcases List.mem_singleton.mp h3 with rfl
        exact List.mem_cons_self _ _
  unfold _process_url
  by_cases hv : normalize_url url ∈ st.visited_urls
  · rw [if_pos hv]
    exact h
  · rw [if_neg hv]
    dsimp only
    have hdropInv : TraceInv
        { st with visited_urls := normalize_url url :: st.visited_urls } := by
      refine ⟨h.1, ?_⟩
      intro u hu
      exact List.mem_cons_of_mem _ (h.2 u hu)
    split
    · split
      · split
        · exact hdropInv
        · exact hfetch _ rfl rfl hv
      · exact hfetch _ rfl rfl hv
    · exact hfetch _ rfl rfl hv

lemma subdomain_expand_TraceInv (sc : Scraper) (net : PageNet)
    (st : ScrapeState) (u : Url) (q : List Url) (h : TraceInv st) :
    TraceInv (subdomain_expand sc net st u q).1 := by
  obtain ⟨h1, h2⟩ := subdomain_expand_fields sc net st u q
  exact ⟨h2 ▸ h.1, fun x hx => h1 ▸ h.2 x (h2 ▸ hx)⟩

lemma crawl_loop_TraceInv (sc : Scraper) (net : PageNet) :
    ∀ (fuel : Nat) (st : ScrapeState) (q : List Url), TraceInv st →
      TraceInv (crawl_loop sc net fuel st q) := by
  intro fuel
  induction fuel with
  | zero =>
    intro st q h
    rw [crawl_loop]
    exact h
  | succ n ih =>
    intro st q h
    rw [crawl_loop]
    rcases hsort : q.filter (fun u => is_priority_url sc st u) ++
        q.filter (fun u => !is_priority_url sc st u) with _ | ⟨u, rest⟩
    · exact h
    · dsimp only
      split
      · exact ih _ _ h
      · exact ih _ _ (_process_url_TraceInv sc net st u h)

lemma TraceInv_of_procTrace_nil {st : ScrapeState}
    (h : st.procTrace = []) : TraceInv st := by
  constructor
  · rw [h]
    exact List.nodup_nil
  · intro u hu
    rw [h] at hu
    cases hu

lemma crawlSeedStep_TraceInv (sc : Scraper) (net : PageNet)
    (p : ScrapeState × List Url) (u : Url) (h : TraceInv p.1) :
    TraceInv (crawlSeedStep sc net p u).1 := by
  unfold crawlSeedStep
  split
  · split
    · exact subdomain_expand_TraceInv sc net _ _ _
        (_process_url_TraceInv sc net _ _ h)
    · exact _process_url_TraceInv sc net _ _ h
  · exact h

lemma crawlSeed_TraceInv (sc : Scraper) (net : PageNet) (pg : Page) :
    TraceInv (crawlSeed sc net pg).1 := by
  unfold crawlSeed
  have h0 : TraceInv ((_process_url sc net (crawlState1 sc pg)
      sc.base_url).1, ([sc.base_url] : List Url)).1 :=
    _process_url_TraceInv sc net _ _ (TraceInv_of_procTrace_nil rfl)
  generalize ((_process_url sc net (crawlState1 sc pg) sc.base_url).1,
      ([sc.base_url] : List Url)) = p0 at h0 ⊢
  generalize crawlPrio sc pg = l
  induction l generalizing p0 with
  | nil => exact h0
  | cons u rest ih =>
    rw [List.foldl_cons]
    exact ih _ (crawlSeedStep_TraceInv sc net p0 u h0)

lemma crawl_TraceInv (sc : Scraper) (net : PageNet) (fuel : Nat) :
    TraceInv (crawl sc net fuel) := by
  unfold crawl
  rcases net sc.base_url with pg | _ | _
  · exact crawl_loop_TraceInv sc net fuel _ _ (crawlSeed_TraceInv sc net pg)
  · exact crawl_loop_TraceInv sc net fuel _ _
      (_process_url_TraceInv sc net _ _ (TraceInv_of_procTrace_nil rfl))
  · exact TraceInv_of_procTrace_nil rfl

/-- C3, corrected — counterexample: in one crawl session the landing page is
fetched twice — once by the seeding scan of `crawl` (src/main.py line 338)
and once by `_process_url` (line 467) — so the page at the base URL's
normalized URL is not fetched at most once. -/
theorem at_most_once_fetch_cex :
    (crawl onceSc onceNet 10).fetchTrace =
      ["http://h.com".data, "http://h.com".data] ∧
    ¬ ((crawl onceSc onceNet 10).fetchTrace.map normalize_url).Nodup := by
  refine ⟨rfl, ?_⟩
  decide

/-- C3 (amended): at-most-once visitation holds for the `_process_url`
fetches: processing an already-visited normalized URL is a complete no-op,
the visited set only grows (through `_process_url` and through the crawl
loop), and over a whole `crawl` run the normalized URLs fetched by
`_process_url` are pairwise distinct.  The seeding scan and the
language-subdomain expansion issue additional raw fetches of pages that
`_process_url` may also fetch once (see the counterexample). -/
theorem at_most_once_visitation_amended :
    (∀ (sc : Scraper) (net : PageNet) (st : ScrapeState) (url : Url),
      normalize_url url ∈ st.visited_urls →
      _process_url sc net st url = (st, [])) ∧
    (∀ (sc : Scraper) (net : PageNet) (st : ScrapeState) (url : Url),
      st.visited_urls ⊆ (_process_url sc net st url).1.visited_urls) ∧
    (∀ (sc : Scraper) (net : PageNet) (fuel : Nat) (st : ScrapeState)
        (q : List Url),
      st.visited_urls ⊆ (crawl_loop sc net fuel st q).visited_urls) ∧
    (∀ (sc : Scraper) (net : PageNet) (fuel : Nat),
      ((crawl sc net fuel).procTrace.map normalize_url).Nodup) := by
  refine ⟨?_, ?_, ?_, ?_⟩
  · intro sc net st url hv
    unfold _process_url
    rw [if_pos hv]
  · intro sc net st url
    exact _process_url_visited_mono sc net st url
  · intro sc net fuel st q
    exact crawl_loop_visited_mono sc net fuel st q
  · intro sc net fuel
    exact (crawl_TraceInv sc net fuel).1

/-- Witness for the C3 amended theorem at concrete inputs. -/
theorem at_most_once_visitation_amended_witness :
    _process_url onceSc onceNet
      { initState with visited_urls := ["http://h.com".data] }
      "http://h.com".data =
      ({ initState with visited_urls := ["http://h.com".data] }, []) ∧
    ((crawl onceSc onceNet 10).procTrace.map normalize_url).Nodup :=
  ⟨at_most_once_visitation_amended.1 onceSc onceNet
      { initState with visited_urls := ["http://h.com".data] }
      "http://h.com".data (by decide),
   at_most_once_visitation_amended.2.2.2 onceSc onceNet 10⟩

/-- C4, corrected — counterexample: with `max_booking_urls = 1`, a session
whose landing page links to two external booking engines on two new booking
domains crawls both, ending with `booking_urls_crawled = 2 > 1`: a target on
a new booking domain is always admitted and increments the count, so the
count is not bounded by the configured max. -/
theorem booking_throttle_cex :
    bkSc.max_booking_urls = 1 ∧
    (crawl bkSc bkNet 20).booking_urls_crawled = 2 := by
  exact ⟨rfl, rfl⟩

/-- C4 (amended): the gate of `_process_url` drops a booking target on an
already-seen domain once the crawled count has reached the max — the target
is only marked visited, nothing is fetched and no counter changes — while a
target on a new booking domain is always admitted, adding its domain to the
seen set and incrementing the crawled count at admission (before the fetch
outcome is known), which is how the count can exceed the max. -/
theorem booking_throttle_amended :
    (∀ (sc : Scraper) (net : PageNet) (st : ScrapeState) (url : Url),
      is_booking_url url = true →
      (urlparse url).netloc ∈ st.booking_domains_seen →
      sc.max_booking_urls ≤ st.booking_urls_crawled →
      normalize_url url ∉ st.visited_urls →
      _process_url sc net st url =
        ({ st with visited_urls := normalize_url url :: st.visited_urls }, [])) ∧
    (∀ (sc : Scraper) (net : PageNet) (st : ScrapeState) (url : Url),
      is_booking_url url = true →
      (urlparse url).netloc ∉ st.booking_domains_seen →
      normalize_url url ∉ st.visited_urls →
      (_process_url sc net st url).1.booking_urls_crawled =
          st.booking_urls_crawled + 1 ∧
      (_process_url sc net st url).1.booking_domains_seen =
        (urlparse url).netloc :: st.booking_domains_seen) := by
  constructor
  · intro sc net st url hb hdom hmax hnv
    have hge : st.booking_urls_crawled ≥ sc.max_booking_urls := hmax
    unfold _process_url
    rw [if_neg hnv]
    dsimp only
    rw [hb, if_pos rfl, if_pos hdom, if_pos hge]
  · intro sc net st url hb hdom hnv
    unfold _process_url
    rw [if_neg hnv]
    dsimp only
    rw [hb, if_pos rfl, if_neg hdom]
    obtain ⟨_, _, h3, h4⟩ := _process_url_fetch_fields sc net
      { st with visited_urls := normalize_url url :: st.visited_urls,
                booking_domains_seen :=
                  (urlparse url).netloc :: st.booking_domains_seen,
                booking_urls_crawled := st.booking_urls_crawled + 1 } url
    exact ⟨h3, h4⟩

/-- Witness for the C4 amended theorem: with the count at the max, a target
on the already-seen booking domain is dropped; a fresh state admits a target
on a new booking domain and counts it. -/
theorem booking_throttle_amended_witness :
    _process_url bkSc bkNet bkState "https://booking.hotel.com.aa.net".data =
      ({ bkState with visited_urls :=
          [normalize_url "https://booking.hotel.com.aa.net".data] }, []) ∧
    (_process_url bkSc bkNet initState
        "https://booking.hotel.com.bb.net".data).1.booking_urls_crawled = 1 ∧
    (_process_url bkSc bkNet initState
        "https://booking.hotel.com.bb.net".data).1.booking_domains_seen =
      ["booking.hotel.com.bb.net".data] :=
  ⟨booking_throttle_amended.1 bkSc bkNet bkState
      "https://booking.hotel.com.aa.net".data (by decide) (by decide)
      (by decide) (by decide),
   (booking_throttle_amended.2 bkSc bkNet initState
      "https://booking.hotel.com.bb.net".data (by decide) (by decide)
      (by decide)).1,
   (booking_throttle_amended.2 bkSc bkNet initState
      "https://booking.hotel.com.bb.net".data (by decide) (by decide)
      (by decide)).2⟩

end WebsiteScraper

end HotelHarvest
